import Mathlib

/-!
Verification of the taxifleet-backend authorization and report-lifecycle core.

The Go sources are shallowly embedded: the permission bit-mask model
(internal/permissions), the repository data model (internal/repository) and the
service layer (internal/service) are translated into executable Lean
definitions.  Go `int` is modelled as `Int` (64-bit values, no overflow occurs
in the translated code); bitwise operations use `Int.land`, which implements
two's-complement semantics, so the `-1` admin sentinel behaves as in Go.
Go `float64` money amounts are modelled as `Rat` (all amounts in the claims are
exactly representable and only addition and comparison are performed).
`time.Time` is modelled as an abstract instant `Int` (the Go zero value is 0,
`IsZero` is equality with 0); `time.Parse "2006-01-02"` is an external stdlib
collaborator and is passed in as an abstract parameter `parse : String → Option Int`
(`none` models a parse error; Go's pair return with an ignored error is
`(parse s).getD 0`, the zero time).  The database behind the gorm repository is
modelled as in-memory lists with a monotone id allocator; gorm soft deletion is
modelled by removal, since every translated query excludes soft-deleted rows.
Each service method becomes a function `DB → ... → Except String α × DB`
returning the Go error string and the post-state.
-/

namespace TaxiFleet

/-! ## Permission model (package internal/permissions) -/

def PermissionViewReports : Int := 1
def PermissionAddReports : Int := 2
def PermissionEditReports : Int := 4
def PermissionDeleteReports : Int := 8
def PermissionViewTaxis : Int := 16
def PermissionAddTaxis : Int := 32
def PermissionEditTaxis : Int := 64
def PermissionDeleteTaxis : Int := 128
def PermissionViewExpenses : Int := 256
def PermissionAddExpenses : Int := 512
def PermissionEditExpenses : Int := 1024
def PermissionDeleteExpenses : Int := 2048
def PermissionViewDeposits : Int := 4096
def PermissionAddDeposits : Int := 8192
def PermissionEditDeposits : Int := 16384
def PermissionDeleteDeposits : Int := 32768
def PermissionViewUsers : Int := 65536
def PermissionAddUsers : Int := 131072
def PermissionEditUsers : Int := 262144
def PermissionDeleteUsers : Int := 524288
def PermissionManageTenants : Int := 1048576

/-- Admin has all permissions: 0xFFFFFFFF, all 32 bits set (default value of
the package-level variable; overrides at process start are out of scope). -/
def PermissionAdmin : Int := 0xFFFFFFFF

/-- Owner role mask: OR of the 16 report/taxi/expense/deposit resource bits. -/
def PermissionOwner : Int :=
  Int.lor (Int.lor (Int.lor (Int.lor (Int.lor (Int.lor (Int.lor
    (Int.lor (Int.lor (Int.lor (Int.lor (Int.lor (Int.lor (Int.lor
      (Int.lor PermissionViewReports PermissionAddReports)
        PermissionEditReports) PermissionDeleteReports)
          PermissionViewTaxis) PermissionAddTaxis) PermissionEditTaxis)
            PermissionDeleteTaxis) PermissionViewExpenses) PermissionAddExpenses)
              PermissionEditExpenses) PermissionDeleteExpenses)
                PermissionViewDeposits) PermissionAddDeposits)
                  PermissionEditDeposits) PermissionDeleteDeposits

/-- Manager role mask: view/add/edit reports, view/add/edit deposits, view taxis. -/
def PermissionManager : Int :=
  Int.lor (Int.lor (Int.lor (Int.lor (Int.lor (Int.lor
    PermissionViewReports PermissionAddReports) PermissionEditReports)
      PermissionViewDeposits) PermissionAddDeposits) PermissionEditDeposits)
        PermissionViewTaxis

/-- Mechanic role mask: view taxis, view reports. -/
def PermissionMechanic : Int := Int.lor PermissionViewTaxis PermissionViewReports

/-- Driver role mask: view and add reports. -/
def PermissionDriver : Int := Int.lor PermissionViewReports PermissionAddReports

/-- Translation of permissions.HasPermission: admin sentinel checks
(-1, the admin mask value, or all admin bits set bitwise), then a
nonzero-intersection test with the required bits. -/
def HasPermission (userPermission requiredPermission : Int) : Bool :=
  if userPermission == -1 || userPermission == PermissionAdmin then true
  else if Int.land userPermission PermissionAdmin == PermissionAdmin then true
  else Int.land userPermission requiredPermission != 0

/-- Translation of permissions.HasAnyPermission (Go variadic arguments become a
list): admin sentinel checks, then true if any required value intersects the
user mask. -/
def HasAnyPermission (userPermission : Int) (requiredPermissions : List Int) : Bool :=
  if userPermission == -1 || userPermission == PermissionAdmin then true
  else if Int.land userPermission PermissionAdmin == PermissionAdmin then true
  else requiredPermissions.any (fun perm => Int.land userPermission perm != 0)

/-- Translation of permissions.HasAllPermissions: admin sentinel checks, then
false as soon as some required value has empty intersection with the user mask. -/
def HasAllPermissions (userPermission : Int) (requiredPermissions : List Int) : Bool :=
  if userPermission == -1 || userPermission == PermissionAdmin then true
  else if Int.land userPermission PermissionAdmin == PermissionAdmin then true
  else requiredPermissions.all (fun perm => Int.land userPermission perm != 0)

/-- The admin sentinel in its two representations: the signed-integer
storage artifact -1, or a mask in which every bit of the 32-bit admin mask is
set (the unsigned all-bits-set representation). -/
def isAdminSentinel (m : Int) : Prop :=
  m = -1 ∨ Int.land m PermissionAdmin = PermissionAdmin

instance (m : Int) : Decidable (isAdminSentinel m) := by
  unfold isAdminSentinel; infer_instance

example : PermissionOwner = 65535 := by decide
example : PermissionDriver = 3 := by decide
example : PermissionMechanic = 17 := by decide
example : PermissionManager = 28695 := by decide

/-! ## Data model (package internal/repository, models) -/

/-- Translation of repository.User (gorm bookkeeping fields omitted; the
permission mask is a Go int stored in a signed column, hence Int). -/
structure User where
  id : Nat
  tenantId : Nat
  email : String
  passwordHash : String
  permission : Int
  firstName : String
  lastName : String
  phone : String
  active : Bool
deriving DecidableEq

/-- Translation of repository.Session: a persisted refresh token with expiry. -/
structure Session where
  id : Nat
  userId : Nat
  token : String
  expiresAt : Int
deriving DecidableEq

/-- Translation of repository.Taxi. -/
structure Taxi where
  id : Nat
  tenantId : Nat
  licensePlate : String
  model : String
  year : Int
  color : String
  vin : String
  status : String
  assignedDriverId : Option Nat
deriving DecidableEq

/-- Translation of repository.WeeklyReport. -/
structure WeeklyReport where
  id : Nat
  tenantId : Nat
  taxiId : Nat
  driverId : Nat
  weekStartDate : Int
  earnings : Rat
  totalExpenses : Rat
  status : String
  notes : String
  submittedAt : Option Int
  approvedAt : Option Int
  approvedById : Option Nat
deriving DecidableEq

/-- Translation of repository.Expense. -/
structure Expense where
  id : Nat
  tenantId : Nat
  reportId : Option Nat
  taxiId : Option Nat
  category : String
  amount : Rat
  reason : String
  receiptUrl : String
  date : Int
  createdById : Nat
deriving DecidableEq

/-- Translation of repository.BankDeposit. -/
structure BankDeposit where
  id : Nat
  tenantId : Nat
  amount : Rat
  depositDate : Int
  periodStart : Int
  periodEnd : Int
  bankAccount : String
  proofUrl : String
  notes : String
deriving DecidableEq

/-- The persistent store behind repository.Repository: one list per table plus
a monotone primary-key allocator (Postgres serial columns; a single counter is
used for all tables, which only strengthens uniqueness). -/
structure DB where
  users : List User
  sessions : List Session
  taxis : List Taxi
  reports : List WeeklyReport
  expenses : List Expense
  deposits : List BankDeposit
  nextId : Nat
deriving DecidableEq

/-! ## Repository layer (package internal/repository, queries)

Gorm First(-, id) is find-by-primary-key returning a not-found sentinel,
modelled as Option.  Save is update-in-place by primary key.  Delete is a
soft delete; since every translated query excludes soft-deleted rows, it is
modelled as removal. -/

def Repository.GetUserByID (db : DB) (id : Nat) : Option User :=
  db.users.find? (fun u => u.id == id)

def Repository.GetSessionByToken (db : DB) (token : String) (now : Int) : Option Session :=
  db.sessions.find? (fun s => s.token == token && now < s.expiresAt)

def Repository.GetTaxiByID (db : DB) (id : Nat) : Option Taxi :=
  db.taxis.find? (fun t => t.id == id)

def Repository.GetReportByID (db : DB) (id : Nat) : Option WeeklyReport :=
  db.reports.find? (fun r => r.id == id)

def Repository.GetReportsByTenant (db : DB) (tenantID : Nat) : List WeeklyReport :=
  db.reports.filter (fun r => r.tenantId == tenantID)

def Repository.GetReportsByDriver (db : DB) (driverID : Nat) : List WeeklyReport :=
  db.reports.filter (fun r => r.driverId == driverID)

def Repository.CreateReport (db : DB) (mk : Nat → WeeklyReport) : WeeklyReport × DB :=
  let r := mk db.nextId
  (r, { db with reports := db.reports ++ [r], nextId := db.nextId + 1 })

def Repository.UpdateReport (db : DB) (r : WeeklyReport) : DB :=
  { db with reports := db.reports.map (fun x => if x.id == r.id then r else x) }

def Repository.DeleteReport (db : DB) (id : Nat) : DB :=
  { db with reports := db.reports.filter (fun x => x.id != id) }

def Repository.GetExpenseByID (db : DB) (id : Nat) : Option Expense :=
  db.expenses.find? (fun e => e.id == id)

def Repository.GetExpensesByTenant (db : DB) (tenantID : Nat) : List Expense :=
  db.expenses.filter (fun e => e.tenantId == tenantID)

def Repository.GetExpensesByReport (db : DB) (reportID : Nat) : List Expense :=
  db.expenses.filter (fun e => e.reportId == some reportID)

def Repository.CreateExpense (db : DB) (mk : Nat → Expense) : Expense × DB :=
  let e := mk db.nextId
  (e, { db with expenses := db.expenses ++ [e], nextId := db.nextId + 1 })

def Repository.UpdateExpense (db : DB) (e : Expense) : DB :=
  { db with expenses := db.expenses.map (fun x => if x.id == e.id then e else x) }

def Repository.DeleteExpense (db : DB) (id : Nat) : DB :=
  { db with expenses := db.expenses.filter (fun x => x.id != id) }

def Repository.GetDepositByID (db : DB) (id : Nat) : Option BankDeposit :=
  db.deposits.find? (fun d => d.id == id)

def Repository.GetDepositsByTenant (db : DB) (tenantID : Nat) : List BankDeposit :=
  db.deposits.filter (fun d => d.tenantId == tenantID)

def Repository.CreateDeposit (db : DB) (mk : Nat → BankDeposit) : BankDeposit × DB :=
  let d := mk db.nextId
  (d, { db with deposits := db.deposits ++ [d], nextId := db.nextId + 1 })

def Repository.UpdateDeposit (db : DB) (d : BankDeposit) : DB :=
  { db with deposits := db.deposits.map (fun x => if x.id == d.id then d else x) }

def Repository.DeleteDeposit (db : DB) (id : Nat) : DB :=
  { db with deposits := db.deposits.filter (fun x => x.id != id) }

/-! ## Report service (internal/service/report.go, ReportService) -/

structure CreateReportRequest where
  taxiId : Nat
  weekStartDate : Int
  earnings : Rat
  notes : String
deriving DecidableEq

structure UpdateReportRequest where
  weekStartDate : Int
  earnings : Rat
  notes : String
deriving DecidableEq

/-- The final re-read the service methods perform before returning
(s.repo.GetReportByID after a write); a miss surfaces the gorm sentinel. -/
def fetchReport (db : DB) (id : Nat) : Except String WeeklyReport :=
  match Repository.GetReportByID db id with
  | some r => .ok r
  | none => .error "record not found"

def fetchExpense (db : DB) (id : Nat) : Except String Expense :=
  match Repository.GetExpenseByID db id with
  | some e => .ok e
  | none => .error "record not found"

def fetchDeposit (db : DB) (id : Nat) : Except String BankDeposit :=
  match Repository.GetDepositByID db id with
  | some d => .ok d
  | none => .error "record not found"

/-- Translation of ReportService.Create: the referenced taxi must exist and
belong to the caller's tenant, the new report starts in status draft with
total_expenses 0. -/
def ReportService.Create (db : DB) (tenantID driverID : Nat)
    (req : CreateReportRequest) : Except String WeeklyReport × DB :=
  match Repository.GetTaxiByID db req.taxiId with
  | none => (.error "taxi not found", db)
  | some taxi =>
    if taxi.tenantId != tenantID then (.error "taxi not found", db)
    else
      let (report, db1) := Repository.CreateReport db (fun rid =>
        { id := rid, tenantId := tenantID, taxiId := req.taxiId,
          driverId := driverID, weekStartDate := req.weekStartDate,
          earnings := req.earnings, totalExpenses := 0, status := "draft",
          notes := req.notes, submittedAt := none, approvedAt := none,
          approvedById := none })
      (fetchReport db1 report.id, db1)

/-- Translation of ReportService.GetByID: tenant mismatch is reported as
report not found. -/
def ReportService.GetByID (db : DB) (id tenantID : Nat) :
    Except String WeeklyReport × DB :=
  match Repository.GetReportByID db id with
  | none => (.error "record not found", db)
  | some report =>
    if report.tenantId != tenantID then (.error "report not found", db)
    else (.ok report, db)

/-- Translation of ReportService.List: a caller whose mask equals exactly the
driver mask sees only their own reports, everyone else sees the whole tenant.
The ORDER BY week_start_date DESC of the underlying queries is not modelled;
no claim concerns ordering. -/
def ReportService.List (db : DB) (tenantID userID : Nat) (permission : Int) :
    Except String (List WeeklyReport) × DB :=
  if permission == PermissionDriver then
    (.ok (Repository.GetReportsByDriver db userID), db)
  else
    (.ok (Repository.GetReportsByTenant db tenantID), db)

/-- Translation of ReportService.Update.  Go's nested if/else authorization
block is flattened into guard-ordered early returns with identical semantics:
without the edit-reports bit the caller must be the report's driver and the
report must be draft; with it the report must not be approved.  On success
the mutable fields are overwritten only when the request value is nonzero and
total_expenses is recomputed from the expenses linked to the report. -/
def ReportService.Update (db : DB) (id tenantID driverID : Nat)
    (permission : Int) (req : UpdateReportRequest) :
    Except String WeeklyReport × DB :=
  match Repository.GetReportByID db id with
  | none => (.error "record not found", db)
  | some report =>
    if report.tenantId != tenantID then (.error "report not found", db)
    else
      let hasEditPermission := HasPermission permission PermissionEditReports
      if !hasEditPermission && report.driverId != driverID then
        (.error "unauthorized", db)
      else if !hasEditPermission && report.status != "draft" then
        (.error "can only edit draft reports", db)
      else if hasEditPermission && report.status == "approved" then
        (.error "cannot edit approved reports", db)
      else
        let report1 :=
          { report with
            weekStartDate :=
              if req.weekStartDate != 0 then req.weekStartDate
              else report.weekStartDate,
            earnings :=
              if req.earnings != 0 then req.earnings else report.earnings,
            notes := if req.notes != "" then req.notes else report.notes }
        let total :=
          ((Repository.GetExpensesByReport db report.id).map
            (fun e => e.amount)).sum
        let report2 := { report1 with totalExpenses := total }
        let db1 := Repository.UpdateReport db report2
        (fetchReport db1 report.id, db1)

/-- Translation of ReportService.Submit: only the report's own driver may
submit, only from draft; stamps submitted_at. -/
def ReportService.Submit (db : DB) (id tenantID driverID : Nat) (now : Int) :
    Except String WeeklyReport × DB :=
  match Repository.GetReportByID db id with
  | none => (.error "record not found", db)
  | some report =>
    if report.tenantId != tenantID then (.error "report not found", db)
    else if report.driverId != driverID then (.error "unauthorized", db)
    else if report.status != "draft" then (.error "report already submitted", db)
    else
      let report1 :=
        { report with status := "submitted", submittedAt := some now }
      let db1 := Repository.UpdateReport db report1
      (fetchReport db1 report.id, db1)

/-- Translation of ReportService.Approve: the permission gate runs first
(HasAnyPermission against the owner and admin masks), then tenant scoping,
then the submitted-state guard; stamps approved_at and approved_by. -/
def ReportService.Approve (db : DB) (id tenantID approvedByID : Nat)
    (permission : Int) (now : Int) : Except String WeeklyReport × DB :=
  if !(HasAnyPermission permission [PermissionOwner, PermissionAdmin]) then
    (.error "only owner or admin can approve reports", db)
  else
    match Repository.GetReportByID db id with
    | none => (.error "record not found", db)
    | some report =>
      if report.tenantId != tenantID then (.error "report not found", db)
      else if report.status != "submitted" then
        (.error "report must be submitted before approval", db)
      else
        let report1 :=
          { report with
            status := "approved"
            approvedAt := some now
            approvedById := some approvedByID }
        let db1 := Repository.UpdateReport db report1
        (fetchReport db1 report.id, db1)

/-- Translation of ReportService.Reject: tenant scoping then the
submitted-state guard; no actor permission check. -/
def ReportService.Reject (db : DB) (id tenantID : Nat) :
    Except String WeeklyReport × DB :=
  match Repository.GetReportByID db id with
  | none => (.error "record not found", db)
  | some report =>
    if report.tenantId != tenantID then (.error "report not found", db)
    else if report.status != "submitted" then
      (.error "report must be submitted before rejection", db)
    else
      let report1 := { report with status := "rejected" }
      let db1 := Repository.UpdateReport db report1
      (fetchReport db1 report.id, db1)

/-- Translation of ReportService.Delete: tenant scoping, then the
owner-or-admin branch deletes in any status, then a caller whose mask is
exactly the driver mask may delete their own draft, all else unauthorized. -/
def ReportService.Delete (db : DB) (id tenantID driverID : Nat)
    (permission : Int) : Except String Unit × DB :=
  match Repository.GetReportByID db id with
  | none => (.error "record not found", db)
  | some report =>
    if report.tenantId != tenantID then (.error "report not found", db)
    else if HasAnyPermission permission [PermissionOwner, PermissionAdmin] then
      (.ok (), Repository.DeleteReport db id)
    else if permission == PermissionDriver then
      if report.driverId != driverID then (.error "unauthorized", db)
      else if report.status != "draft" then
        (.error "can only delete draft reports", db)
      else (.ok (), Repository.DeleteReport db id)
    else (.error "unauthorized", db)

/-! ## Expense service (internal/service/report.go, ExpenseService)

Date strings are parsed by the stdlib collaborator, passed in as
parse : String → Option Int (none models a time.Parse error). -/

structure CreateExpenseRequest where
  reportId : Option Nat
  taxiId : Option Nat
  category : String
  amount : Rat
  reason : String
  receiptUrl : String
  date : String
deriving DecidableEq

structure UpdateExpenseRequest where
  category : String
  amount : Rat
  reason : String
  receiptUrl : String
  date : String
deriving DecidableEq

/-- The report-total recomputation block shared by the expense service paths:
re-read the report, sum the amounts of the expenses linked to it and save.
Used with and without the tenant condition exactly as each source path does. -/
def recomputeReportTotal (db : DB) (reportID : Nat) : DB :=
  match Repository.GetReportByID db reportID with
  | none => db
  | some report =>
    let total :=
      ((Repository.GetExpensesByReport db report.id).map
        (fun e => e.amount)).sum
    Repository.UpdateReport db { report with totalExpenses := total }

/-- Translation of ExpenseService.Create: parse the date (empty date means
now), create the expense, then — only when the request names a report AND that
report exists AND belongs to the caller's tenant — recompute that report's
total.  No error is ever raised about the referenced report. -/
def ExpenseService.Create (db : DB) (tenantID createdByID : Nat)
    (req : CreateExpenseRequest) (now : Int) (parse : String → Option Int) :
    Except String Expense × DB :=
  let dateVal? : Except String Int :=
    if req.date != "" then
      match parse req.date with
      | none => .error "invalid date format"
      | some d => .ok d
    else .ok now
  match dateVal? with
  | .error e => (.error e, db)
  | .ok dateVal =>
    let (expense, db1) := Repository.CreateExpense db (fun eid =>
      { id := eid, tenantId := tenantID, reportId := req.reportId,
        taxiId := req.taxiId, category := req.category, amount := req.amount,
        reason := req.reason, receiptUrl := req.receiptUrl, date := dateVal,
        createdById := createdByID })
    let db2 :=
      match req.reportId with
      | none => db1
      | some rid =>
        match Repository.GetReportByID db1 rid with
        | none => db1
        | some report =>
          if report.tenantId == tenantID then recomputeReportTotal db1 rid
          else db1
    (fetchExpense db2 expense.id, db2)

/-- Translation of ExpenseService.GetByID: tenant mismatch is reported as
expense not found. -/
def ExpenseService.GetByID (db : DB) (id tenantID : Nat) :
    Except String Expense × DB :=
  match Repository.GetExpenseByID db id with
  | none => (.error "record not found", db)
  | some expense =>
    if expense.tenantId != tenantID then (.error "expense not found", db)
    else (.ok expense, db)

/-- Translation of ExpenseService.List. -/
def ExpenseService.List (db : DB) (tenantID : Nat) :
    Except String (List Expense) × DB :=
  (.ok (Repository.GetExpensesByTenant db tenantID), db)

/-- The in-memory field mutations of ExpenseService.Update: each request
field overwrites only when nonzero; a parsed date (when present) overwrites
the stored date. -/
def applyExpenseUpdate (expense : Expense) (req : UpdateExpenseRequest)
    (dateVal : Option Int) : Expense :=
  { expense with
    category := if req.category != "" then req.category
      else expense.category
    amount := if req.amount != 0 then req.amount else expense.amount
    reason := if req.reason != "" then req.reason else expense.reason
    receiptUrl := if req.receiptUrl != "" then req.receiptUrl
      else expense.receiptUrl
    date := dateVal.getD expense.date }

/-- Translation of ExpenseService.Update: tenant scoping, then each request
field overwrites only when nonzero (an unparseable nonempty date errors out
before any write), then save and — when the expense is linked to a report
that exists, with no tenant condition here — recompute that report's total. -/
def ExpenseService.Update (db : DB) (id tenantID : Nat)
    (req : UpdateExpenseRequest) (parse : String → Option Int) :
    Except String Expense × DB :=
  match Repository.GetExpenseByID db id with
  | none => (.error "record not found", db)
  | some expense =>
    if expense.tenantId != tenantID then (.error "expense not found", db)
    else
      let dateVal? : Except String (Option Int) :=
        if req.date != "" then
          match parse req.date with
          | none => .error "invalid date format"
          | some d => .ok (some d)
        else .ok none
      match dateVal? with
      | .error e => (.error e, db)
      | .ok dateVal =>
        let expense1 := applyExpenseUpdate expense req dateVal
        let db1 := Repository.UpdateExpense db expense1
        let db2 :=
          match expense.reportId with
          | none => db1
          | some rid => recomputeReportTotal db1 rid
        (fetchExpense db2 expense.id, db2)

/-- Translation of ExpenseService.Delete: tenant scoping, delete, then — when
the expense was linked to a report that exists, with no tenant condition —
recompute that report's total. -/
def ExpenseService.Delete (db : DB) (id tenantID : Nat) :
    Except String Unit × DB :=
  match Repository.GetExpenseByID db id with
  | none => (.error "record not found", db)
  | some expense =>
    if expense.tenantId != tenantID then (.error "expense not found", db)
    else
      let db1 := Repository.DeleteExpense db id
      let db2 :=
        match expense.reportId with
        | none => db1
        | some rid => recomputeReportTotal db1 rid
      (.ok (), db2)

/-! ## Deposit service (service layer, DepositService) -/

structure CreateDepositRequest where
  amount : Rat
  depositDate : String
  periodStart : String
  periodEnd : String
  bankAccount : String
  proofUrl : String
  notes : String
deriving DecidableEq

structure UpdateDepositRequest where
  amount : Rat
  depositDate : String
  periodStart : String
  periodEnd : String
  bankAccount : String
  proofUrl : String
  notes : String
deriving DecidableEq

/-- Translation of DepositService.Create: date parse errors are discarded
(Go's ignored second return value), leaving the zero time. -/
def DepositService.Create (db : DB) (tenantID : Nat)
    (req : CreateDepositRequest) (parse : String → Option Int) :
    Except String BankDeposit × DB :=
  let (deposit, db1) := Repository.CreateDeposit db (fun did =>
    { id := did, tenantId := tenantID, amount := req.amount,
      depositDate := (parse req.depositDate).getD 0,
      periodStart := (parse req.periodStart).getD 0,
      periodEnd := (parse req.periodEnd).getD 0,
      bankAccount := req.bankAccount, proofUrl := req.proofUrl,
      notes := req.notes })
  (fetchDeposit db1 deposit.id, db1)

/-- Translation of DepositService.GetByID: tenant mismatch is reported as
deposit not found. -/
def DepositService.GetByID (db : DB) (id tenantID : Nat) :
    Except String BankDeposit × DB :=
  match Repository.GetDepositByID db id with
  | none => (.error "record not found", db)
  | some deposit =>
    if deposit.tenantId != tenantID then (.error "deposit not found", db)
    else (.ok deposit, db)

/-- Translation of DepositService.List. -/
def DepositService.List (db : DB) (tenantID : Nat) :
    Except String (List BankDeposit) × DB :=
  (.ok (Repository.GetDepositsByTenant db tenantID), db)

/-- Translation of DepositService.Update: tenant scoping, then each request
field overwrites only when nonzero; date parse errors are discarded, writing
the zero time. -/
def DepositService.Update (db : DB) (id tenantID : Nat)
    (req : UpdateDepositRequest) (parse : String → Option Int) :
    Except String BankDeposit × DB :=
  match Repository.GetDepositByID db id with
  | none => (.error "record not found", db)
  | some deposit =>
    if deposit.tenantId != tenantID then (.error "deposit not found", db)
    else
      let deposit1 :=
        { deposit with
          amount := if req.amount != 0 then req.amount else deposit.amount
          depositDate := if req.depositDate != "" then
              (parse req.depositDate).getD 0
            else deposit.depositDate
          periodStart := if req.periodStart != "" then
              (parse req.periodStart).getD 0
            else deposit.periodStart
          periodEnd := if req.periodEnd != "" then
              (parse req.periodEnd).getD 0
            else deposit.periodEnd
          bankAccount := if req.bankAccount != "" then req.bankAccount
            else deposit.bankAccount
          proofUrl := if req.proofUrl != "" then req.proofUrl
            else deposit.proofUrl
          notes := if req.notes != "" then req.notes else deposit.notes }
      let db1 := Repository.UpdateDeposit db deposit1
      (fetchDeposit db1 deposit.id, db1)

/-- Translation of DepositService.Delete: tenant scoping then delete. -/
def DepositService.Delete (db : DB) (id tenantID : Nat) :
    Except String Unit × DB :=
  match Repository.GetDepositByID db id with
  | none => (.error "record not found", db)
  | some deposit =>
    if deposit.tenantId != tenantID then (.error "deposit not found", db)
    else (.ok (), Repository.DeleteDeposit db id)

/-! ## Authentication service (internal/service/auth.go), refresh path -/

/-- Model of generateTokens: the JWT signing primitive is an external
collaborator producing opaque bearer strings from the user identity, mask and
clock; the claims only depend on a token being returned. -/
def generateTokens (user : User) (now : Int) : String × String :=
  ("access." ++ toString user.id ++ "." ++ toString user.permission ++ "."
      ++ toString now,
    "refresh." ++ toString user.id ++ "." ++ toString user.permission ++ "."
      ++ toString now)

/-- Translation of AuthService.RefreshToken: look up the session by token text
(the query itself requires expires_at beyond now), then the session's user,
then issue a fresh access token.  No write happens on any path: no session is
deleted and no new refresh token is persisted. -/
def AuthService.RefreshToken (db : DB) (refreshToken : String) (now : Int) :
    Except String String × DB :=
  match Repository.GetSessionByToken db refreshToken now with
  | none => (.error "invalid refresh token", db)
  | some session =>
    match Repository.GetUserByID db session.userId with
    | none => (.error "user not found", db)
    | some user => (.ok (generateTokens user now).1, db)

/-! ## Concrete fixtures used by the theorems below -/

def emptyDB : DB :=
  { users := [], sessions := [], taxis := [], reports := [], expenses := [],
    deposits := [], nextId := 1 }

def taxiC1 : Taxi :=
  { id := 1, tenantId := 1, licensePlate := "ABC-123", model := "Camry",
    year := 2020, color := "white", vin := "V1", status := "active",
    assignedDriverId := some 5 }

def rptC1 : WeeklyReport :=
  { id := 2, tenantId := 1, taxiId := 1, driverId := 5, weekStartDate := 10,
    earnings := 500, totalExpenses := 0, status := "submitted", notes := "",
    submittedAt := some 1, approvedAt := none, approvedById := none }

def dbC1 : DB :=
  { emptyDB with taxis := [taxiC1], reports := [rptC1], nextId := 3 }

def rptC2 : WeeklyReport :=
  { id := 2, tenantId := 1, taxiId := 1, driverId := 5, weekStartDate := 10,
    earnings := 500, totalExpenses := 0, status := "approved", notes := "",
    submittedAt := some 1, approvedAt := some 2, approvedById := some 8 }

def dbC2 : DB := { emptyDB with reports := [rptC2], nextId := 3 }

def rptC3 : WeeklyReport :=
  { id := 1, tenantId := 1, taxiId := 1, driverId := 5, weekStartDate := 10,
    earnings := 500, totalExpenses := 0, status := "draft", notes := "",
    submittedAt := none, approvedAt := none, approvedById := none }

def dbC3 : DB := { emptyDB with reports := [rptC3], nextId := 2 }

def reqC3 : CreateExpenseRequest :=
  { reportId := some 1, taxiId := none, category := "fuel", amount := 5,
    reason := "", receiptUrl := "", date := "" }

def reqC3s : CreateExpenseRequest :=
  { reportId := some 1, taxiId := none, category := "fuel",
    amount := (85 : Rat) / 2, reason := "", receiptUrl := "", date := "" }

/-- A date parser instance for witnesses: rejects every string (no witness
path parses a date). -/
def noParse : String → Option Int := fun _ => none

def rptC6 : WeeklyReport :=
  { id := 1, tenantId := 1, taxiId := 1, driverId := 5, weekStartDate := 10,
    earnings := 500, totalExpenses := 7, status := "draft", notes := "",
    submittedAt := none, approvedAt := none, approvedById := none }

def dbC6 : DB := { emptyDB with reports := [rptC6], nextId := 2 }

def reqC6 : UpdateReportRequest :=
  { weekStartDate := 0, earnings := 800, notes := "" }

def rptC7 : WeeklyReport :=
  { id := 1, tenantId := 1, taxiId := 1, driverId := 5, weekStartDate := 10,
    earnings := 500, totalExpenses := 0, status := "draft", notes := "",
    submittedAt := none, approvedAt := none, approvedById := none }

def expC7 : Expense :=
  { id := 2, tenantId := 1, reportId := none, taxiId := none,
    category := "fuel", amount := 30, reason := "", receiptUrl := "",
    date := 10, createdById := 5 }

def depC7 : BankDeposit :=
  { id := 3, tenantId := 1, amount := 100, depositDate := 10,
    periodStart := 1, periodEnd := 7, bankAccount := "", proofUrl := "",
    notes := "" }

def dbC7 : DB :=
  { emptyDB with
    reports := [rptC7]
    expenses := [expC7]
    deposits := [depC7]
    nextId := 4 }

def sessC8 : Session := { id := 1, userId := 5, token := "t", expiresAt := 100 }

def dbC8bad : DB := { emptyDB with sessions := [sessC8], nextId := 2 }

def userC8 : User :=
  { id := 5, tenantId := 1, email := "driver@x", passwordHash := "h",
    permission := 3, firstName := "d", lastName := "r", phone := "",
    active := true }

def dbC8 : DB :=
  { emptyDB with users := [userC8], sessions := [sessC8], nextId := 6 }

def rptC9 : WeeklyReport :=
  { id := 1, tenantId := 2, taxiId := 1, driverId := 5, weekStartDate := 10,
    earnings := 500, totalExpenses := 0, status := "draft", notes := "",
    submittedAt := none, approvedAt := none, approvedById := none }

def dbC9 : DB := { emptyDB with reports := [rptC9], nextId := 2 }

def reqC9 : CreateExpenseRequest :=
  { reportId := some 1, taxiId := none, category := "repair", amount := 7,
    reason := "", receiptUrl := "", date := "" }

def expC10 : Expense :=
  { id := 2, tenantId := 1, reportId := none, taxiId := none,
    category := "fuel", amount := 30, reason := "r", receiptUrl := "u",
    date := 10, createdById := 5 }

def depC10 : BankDeposit :=
  { id := 3, tenantId := 1, amount := 100, depositDate := 10,
    periodStart := 1, periodEnd := 7, bankAccount := "b", proofUrl := "p",
    notes := "n" }

def dbC10 : DB :=
  { emptyDB with
    reports := [rptC6]
    expenses := [expC10]
    deposits := [depC10]
    nextId := 4 }

def zeroReportReq : UpdateReportRequest :=
  { weekStartDate := 0, earnings := 0, notes := "" }

def zeroExpenseReq : UpdateExpenseRequest :=
  { category := "", amount := 0, reason := "", receiptUrl := "", date := "" }

def zeroDepositReq : UpdateDepositRequest :=
  { amount := 0, depositDate := "", periodStart := "", periodEnd := "",
    bankAccount := "", proofUrl := "", notes := "" }

/-! ## Totals invariant (claim C3) -/

/-- The sum of the amounts of the expenses in l linked to report rid, the
quantity the services store in total_expenses. -/
def sumFor (l : List Expense) (rid : Nat) : Rat :=
  ((l.filter (fun e => e.reportId == some rid)).map (fun e => e.amount)).sum

/-- The cross-entity invariant: every stored report's total_expenses equals
the sum of the amounts of the non-deleted expenses linked to it. -/
def reportTotalsInv (db : DB) : Prop :=
  ∀ r ∈ db.reports, r.totalExpenses = sumFor db.expenses r.id

instance (db : DB) : Decidable (reportTotalsInv db) := by
  unfold reportTotalsInv; infer_instance

/-- Well-formedness of a store as the database guarantees it: primary keys
are unique within the report and expense tables, and every id or report
reference lies below the allocator (serial columns never reuse or forward-
reference ids). -/
def DBWF (db : DB) : Prop :=
  (∀ r1 ∈ db.reports, ∀ r2 ∈ db.reports, r1.id = r2.id → r1 = r2)
  ∧ (∀ e1 ∈ db.expenses, ∀ e2 ∈ db.expenses, e1.id = e2.id → e1 = e2)
  ∧ (∀ r ∈ db.reports, r.id < db.nextId)
  ∧ (∀ e ∈ db.expenses,
      e.id < db.nextId ∧ ∀ rid, e.reportId = some rid → rid < db.nextId)

instance (db : DB) : Decidable (DBWF db) := by
  unfold DBWF; infer_instance

/-! ## Permission model theorems -/

/-- Helper: bitwise set difference with an empty second operand is the
identity (needed because Nat.ldiff does not kernel-reduce). -/
theorem ldiff_zero_right (n : Nat) : Nat.ldiff n 0 = n :=
  Nat.eq_of_testBit_eq fun k => by
    rw [Nat.testBit_ldiff, Nat.zero_testBit, Bool.not_false, Bool.and_true]

/-- Helper: the two's-complement all-ones word -1 absorbs nothing under
bitwise and with a nonnegative operand. -/
theorem neg_one_land (n : Nat) : Int.land (-1) (Int.ofNat n) = Int.ofNat n := by
  have h : Int.land (-1) (Int.ofNat n) = Int.ofNat (Nat.ldiff n 0) := rfl
  rw [h, ldiff_zero_right]

/-- Helper: the admin-bitwise sentinel check implies any single defined
permission bit test, shown here for the edit-reports bit via testBit. -/
theorem land_admin_editReports {m : Int}
    (h : Int.land m PermissionAdmin = PermissionAdmin) :
    Int.land m PermissionEditReports ≠ 0 := by
  have hb : Int.testBit m 2 = true := by
    have h2 := Int.testBit_land m PermissionAdmin 2
    rw [h] at h2
    have hA : Int.testBit PermissionAdmin 2 = true := by decide
    rw [hA, Bool.and_true] at h2
    exact h2.symm
  intro hzero
  have h3 := Int.testBit_land m PermissionEditReports 2
  rw [hzero] at h3
  have h0 : Int.testBit 0 2 = false := by decide
  have h4 : Int.testBit PermissionEditReports 2 = true := by decide
  rw [h0, hb, h4] at h3
  exact Bool.false_ne_true h3

/-- Helper: HasPermission with the single-bit edit-reports requirement is
exactly the bit test; every admin-sentinel branch also has that bit. -/
theorem hasPermission_editReports (m : Int) :
    HasPermission m PermissionEditReports = true ↔
      Int.land m PermissionEditReports ≠ 0 := by
  unfold HasPermission
  by_cases h1 : (m == -1 || m == PermissionAdmin) = true
  · rw [if_pos h1]
    rcases Bool.or_eq_true _ _ |>.mp h1 with h | h
    · have hm : m = -1 := beq_iff_eq.mp h
      subst hm
      simp only [true_iff]
      rw [show PermissionEditReports = Int.ofNat 4 from rfl, neg_one_land]
      decide
    · have hm : m = PermissionAdmin := beq_iff_eq.mp h
      subst hm
      simp only [true_iff]
      decide
  · rw [if_neg h1]
    by_cases h2 : (Int.land m PermissionAdmin == PermissionAdmin) = true
    · rw [if_pos h2]
      simp only [true_iff]
      exact land_admin_editReports (beq_iff_eq.mp h2)
    · rw [if_neg h2]
      exact bne_iff_ne

/-- C5: HasPermission(m, r) returns true iff m is the admin sentinel (-1 and
the all-bits-set mask being equivalent representations) or m AND r is
nonzero; in particular -1 and the admin mask satisfy every permission check. -/
theorem hasPermission_spec (m r : Int) :
    (HasPermission m r = true ↔ isAdminSentinel m ∨ Int.land m r ≠ 0)
    ∧ HasPermission (-1) r = true ∧ HasPermission PermissionAdmin r = true := by
  refine ⟨?_, ?_, ?_⟩
  · unfold HasPermission
    by_cases h1 : (m == -1 || m == PermissionAdmin) = true
    · rw [if_pos h1]
      simp only [true_iff]
      rcases Bool.or_eq_true _ _ |>.mp h1 with h | h
      · exact Or.inl (Or.inl (beq_iff_eq.mp h))
      · refine Or.inl (Or.inr ?_)
        rw [beq_iff_eq.mp h]
        decide
    · rw [if_neg h1]
      by_cases h2 : (Int.land m PermissionAdmin == PermissionAdmin) = true
      · rw [if_pos h2]
        simp only [true_iff]
        exact Or.inl (Or.inr (beq_iff_eq.mp h2))
      · rw [if_neg h2]
        rw [bne_iff_ne]
        constructor
        · exact fun h => Or.inr h
        · rintro (hs | h)
          · exfalso
            rcases hs with hm | hm
            · exact h1 (Bool.or_eq_true _ _ |>.mpr (Or.inl (beq_iff_eq.mpr hm)))
            · exact h2 (beq_iff_eq.mpr hm)
          · exact h
  · rfl
  · rfl

/-- C4 counterexample: with user mask 1 and required list [3], the code
returns true (mask 1 shares bit 0 with 3) although not every bit of 3 is set
in 1 and 1 is not the admin sentinel, so the claimed equivalence fails. -/
theorem hasAllPermissions_claim_false :
    ¬ (HasAllPermissions 1 [3] = true ↔
        (isAdminSentinel 1 ∨ ∀ p ∈ ([3] : List Int), Int.land 1 p = p)) := by
  decide

/-- C4 amended: HasAllPermissions(m, S) returns true iff m is the admin
sentinel or every value in S has a nonempty bit intersection with m (for
single-bit required values this coincides with every bit being set). -/
theorem hasAllPermissions_spec (m : Int) (S : List Int) :
    HasAllPermissions m S = true ↔
      isAdminSentinel m ∨ ∀ p ∈ S, Int.land m p ≠ 0 := by
  unfold HasAllPermissions
  by_cases h1 : (m == -1 || m == PermissionAdmin) = true
  · rw [if_pos h1]
    simp only [true_iff]
    rcases Bool.or_eq_true _ _ |>.mp h1 with h | h
    · exact Or.inl (Or.inl (beq_iff_eq.mp h))
    · refine Or.inl (Or.inr ?_)
      rw [beq_iff_eq.mp h]
      decide
  · rw [if_neg h1]
    by_cases h2 : (Int.land m PermissionAdmin == PermissionAdmin) = true
    · rw [if_pos h2]
      simp only [true_iff]
      exact Or.inl (Or.inr (beq_iff_eq.mp h2))
    · rw [if_neg h2]
      rw [List.all_eq_true]
      constructor
      · intro h
        exact Or.inr (fun p hp => bne_iff_ne.mp (h p hp))
      · rintro (hs | h)
        · exfalso
          rcases hs with hm | hm
          · exact h1 (Bool.or_eq_true _ _ |>.mpr (Or.inl (beq_iff_eq.mpr hm)))
          · exact h2 (beq_iff_eq.mpr hm)
        · exact fun p hp => bne_iff_ne.mpr (h p hp)

/-! ## Generic list helpers for the save-by-primary-key store -/

/-- After a save-by-id (map replacing every row whose id matches), looking up
the saved row's id finds the new value, provided the lookup found some row
with that id before and the new value keeps its id. -/
theorem find?_map_update {α : Type} (idOf : α → Nat) (l : List α) (i : Nat)
    (rep r2 : α) (h : l.find? (fun x => idOf x == i) = some rep)
    (hid : idOf r2 = idOf rep) :
    (l.map (fun x => if idOf x == idOf r2 then r2 else x)).find?
      (fun x => idOf x == i) = some r2 := by
  induction l with
  | nil => simp at h
  | cons a l ih =>
    rw [List.find?_cons] at h
    cases ha : (idOf a == i) with
    | true =>
      simp only [ha] at h
      have hra : rep = a := (Option.some.inj h).symm
      have hai : idOf a = i := beq_iff_eq.mp ha
      have hr2 : idOf r2 = i := by rw [hid, hra, hai]
      have hcond : (idOf a == idOf r2) = true := beq_iff_eq.mpr (by rw [hai, hr2])
      have hpred : (idOf r2 == i) = true := beq_iff_eq.mpr hr2
      simp only [List.map_cons, List.find?_cons, hcond, if_true, hpred]
    | false =>
      simp only [ha] at h
      have hai : idOf a ≠ i := by
        intro hc
        rw [beq_iff_eq.mpr hc] at ha
        exact absurd ha (by simp)
      have hp := @List.find?_some _ (fun x => idOf x == i) rep l h
      have hrepi : idOf rep = i := beq_iff_eq.mp hp
      have hcond : (idOf a == idOf r2) = false := by
        cases hc : (idOf a == idOf r2) with
        | true =>
          exfalso
          exact hai (by rw [beq_iff_eq.mp hc, hid, hrepi])
        | false => rfl
      simp only [List.map_cons, List.find?_cons, hcond, Bool.false_eq_true,
        if_false, ha, ih h]

/-- The re-read after a report save returns the saved value when the original
lookup succeeded and the id is preserved. -/
theorem fetchReport_after_update (db : DB) (i : Nat) (rep r2 : WeeklyReport)
    (h : Repository.GetReportByID db i = some rep) (hid : r2.id = rep.id) :
    fetchReport (Repository.UpdateReport db r2) i = .ok r2 := by
  have hfind := find?_map_update WeeklyReport.id db.reports i rep r2 h hid
  unfold fetchReport Repository.GetReportByID Repository.UpdateReport
  rw [hfind]

/-- The re-read after an expense save returns the saved value when the
original lookup succeeded and the id is preserved. -/
theorem fetchExpense_after_update (db : DB) (i : Nat) (rep r2 : Expense)
    (h : Repository.GetExpenseByID db i = some rep) (hid : r2.id = rep.id) :
    fetchExpense (Repository.UpdateExpense db r2) i = .ok r2 := by
  have hfind := find?_map_update Expense.id db.expenses i rep r2 h hid
  unfold fetchExpense Repository.GetExpenseByID Repository.UpdateExpense
  rw [hfind]

/-- The re-read after a deposit save returns the saved value when the
original lookup succeeded and the id is preserved. -/
theorem fetchDeposit_after_update (db : DB) (i : Nat) (rep r2 : BankDeposit)
    (h : Repository.GetDepositByID db i = some rep) (hid : r2.id = rep.id) :
    fetchDeposit (Repository.UpdateDeposit db r2) i = .ok r2 := by
  have hfind := find?_map_update BankDeposit.id db.deposits i rep r2 h hid
  unfold fetchDeposit Repository.GetDepositByID Repository.UpdateDeposit
  rw [hfind]

/-- Report-total recomputation only writes report rows. -/
theorem recompute_expenses_eq (db : DB) (rid : Nat) :
    (recomputeReportTotal db rid).expenses = db.expenses := by
  unfold recomputeReportTotal
  cases Repository.GetReportByID db rid with
  | none => rfl
  | some report => rfl

/-- Report-total recomputation leaves every non-report table unchanged. -/
theorem recompute_frame (db : DB) (rid : Nat) :
    (recomputeReportTotal db rid).users = db.users
    ∧ (recomputeReportTotal db rid).sessions = db.sessions
    ∧ (recomputeReportTotal db rid).taxis = db.taxis
    ∧ (recomputeReportTotal db rid).deposits = db.deposits
    ∧ (recomputeReportTotal db rid).nextId = db.nextId := by
  unfold recomputeReportTotal
  cases Repository.GetReportByID db rid with
  | none => exact ⟨rfl, rfl, rfl, rfl, rfl⟩
  | some report => exact ⟨rfl, rfl, rfl, rfl, rfl⟩

/-- Fetching an expense only reads the expense table. -/
theorem fetchExpense_congr (db1 db2 : DB) (i : Nat)
    (h : db1.expenses = db2.expenses) :
    fetchExpense db1 i = fetchExpense db2 i := by
  unfold fetchExpense Repository.GetExpenseByID
  rw [h]

/-! ## sumFor lemmas -/

/-- A report nothing links to sums to 0. -/
theorem sumFor_not_linked (l : List Expense) (rid : Nat)
    (h : ∀ e ∈ l, e.reportId ≠ some rid) : sumFor l rid = 0 := by
  unfold sumFor
  have hf : l.filter (fun e => e.reportId == some rid) = [] := by
    rw [List.filter_eq_nil_iff]
    intro e he
    simp [h e he]
  rw [hf]
  rfl

/-- Appending an expense linked elsewhere (or nowhere) changes no other
report's sum. -/
theorem sumFor_append_other (l : List Expense) (e : Expense) (rid : Nat)
    (h : e.reportId ≠ some rid) : sumFor (l ++ [e]) rid = sumFor l rid := by
  unfold sumFor
  rw [List.filter_append]
  have hf : [e].filter (fun x => x.reportId == some rid) = [] := by
    simp [h]
  rw [hf, List.append_nil]

/-- Appending an expense linked to rid adds its amount to that sum. -/
theorem sumFor_append_linked (l : List Expense) (e : Expense) (rid : Nat)
    (h : e.reportId = some rid) :
    sumFor (l ++ [e]) rid = sumFor l rid + e.amount := by
  unfold sumFor
  rw [List.filter_append]
  have hf : [e].filter (fun x => x.reportId == some rid) = [e] := by
    simp [h]
  rw [hf, List.map_append, List.sum_append]
  simp

/-- Saving an expense by id changes no sum to which neither the old nor the
new value is linked (ids unique). -/
theorem sumFor_map_update_unlinked (l : List Expense) (e0 e1 : Expense)
    (rid : Nat)
    (huniq : ∀ x ∈ l, x.id = e0.id → x = e0)
    (h0 : e0.reportId ≠ some rid) (h1 : e1.reportId ≠ some rid)
    (hid : e1.id = e0.id) :
    sumFor (l.map (fun x => if x.id == e1.id then e1 else x)) rid =
      sumFor l rid := by
  induction l with
  | nil => rfl
  | cons a l ih =>
    have huniq_tail : ∀ x ∈ l, x.id = e0.id → x = e0 :=
      fun x hx => huniq x (List.mem_cons_of_mem a hx)
    have ihl := ih huniq_tail
    by_cases ha : (a.id == e1.id) = true
    · have hae : a = e0 :=
        huniq a (List.mem_cons_self a l) (by rw [← hid]; exact beq_iff_eq.mp ha)
      unfold sumFor at ihl ⊢
      simp only [List.map_cons, ha, if_true, List.filter_cons]
      have hp1 : (e1.reportId == some rid) = false := by simp [h1]
      have hp0 : (a.reportId == some rid) = false := by
        rw [hae]; simp [h0]
      simp only [hp1, hp0, Bool.false_eq_true, if_false]
      exact ihl
    · unfold sumFor at ihl ⊢
      simp only [List.map_cons, ha, Bool.false_eq_true, if_false,
        List.filter_cons]
      by_cases hp : (a.reportId == some rid) = true
      · simp only [hp, if_true, List.map_cons, List.sum_cons]
        rw [show
          (List.map (fun e => e.amount)
            (List.filter (fun e => e.reportId == some rid)
              (List.map (fun x => if (x.id == e1.id) = true then e1 else x)
                l))).sum =
          (List.map (fun e => e.amount)
            (List.filter (fun e => e.reportId == some rid) l)).sum from ihl]
      · simp only [hp, Bool.false_eq_true, if_false]
        exact ihl

/-- Deleting an expense by id changes no sum it was not linked to (ids
unique). -/
theorem sumFor_filter_ne (l : List Expense) (e0 : Expense) (rid : Nat)
    (huniq : ∀ x ∈ l, x.id = e0.id → x = e0)
    (h0 : e0.reportId ≠ some rid) :
    sumFor (l.filter (fun x => x.id != e0.id)) rid = sumFor l rid := by
  induction l with
  | nil => rfl
  | cons a l ih =>
    have huniq_tail : ∀ x ∈ l, x.id = e0.id → x = e0 :=
      fun x hx => huniq x (List.mem_cons_of_mem a hx)
    have ihl := ih huniq_tail
    by_cases ha : (a.id == e0.id) = true
    · have hae : a = e0 :=
        huniq a (List.mem_cons_self a l) (beq_iff_eq.mp ha)
      have hne : (a.id != e0.id) = false := by simp [beq_iff_eq.mp ha]
      unfold sumFor at ihl ⊢
      simp only [List.filter_cons, hne, Bool.false_eq_true, if_false]
      have hp0 : (a.reportId == some rid) = false := by
        rw [hae]; simp [h0]
      simp only [hp0, Bool.false_eq_true, if_false]
      exact ihl
    · have hne : (a.id != e0.id) = true := by
        simp only [bne_iff_ne]
        intro hc
        rw [beq_iff_eq.mpr hc] at ha
        exact ha rfl
      unfold sumFor at ihl ⊢
      simp only [List.filter_cons, hne, if_true]
      by_cases hp : (a.reportId == some rid) = true
      · simp only [hp, if_true, List.map_cons, List.sum_cons]
        rw [show
          (List.map (fun e => e.amount)
            (List.filter (fun e => e.reportId == some rid)
              (List.filter (fun x => x.id != e0.id) l))).sum =
          (List.map (fun e => e.amount)
            (List.filter (fun e => e.reportId == some rid) l)).sum from ihl]
      · simp only [hp, Bool.false_eq_true, if_false]
        exact ihl

/-- Saving a report whose stored total is the correct sum preserves the
invariant, given every other row already carries the correct sum. -/
theorem inv_updateReport_relaxed (db : DB) (r2 : WeeklyReport)
    (hother : ∀ x ∈ db.reports, x.id ≠ r2.id →
      x.totalExpenses = sumFor db.expenses x.id)
    (ht : r2.totalExpenses = sumFor db.expenses r2.id) :
    reportTotalsInv (Repository.UpdateReport db r2) := by
  intro r hr
  have hexp : (Repository.UpdateReport db r2).expenses = db.expenses := rfl
  rw [hexp]
  have hr2 : r ∈ db.reports.map (fun x => if x.id == r2.id then r2 else x) :=
    hr
  rcases List.mem_map.mp hr2 with ⟨x, hx, hfx⟩
  by_cases hxe : (x.id == r2.id) = true
  · rw [if_pos hxe] at hfx
    rw [← hfx]
    exact ht
  · rw [if_neg hxe] at hfx
    rw [← hfx]
    exact hother x hx (fun hc => hxe (beq_iff_eq.mpr hc))

/-- Deleting report rows preserves the invariant. -/
theorem inv_deleteReport (db : DB) (id : Nat) (hInv : reportTotalsInv db) :
    reportTotalsInv (Repository.DeleteReport db id) := by
  intro r hr
  have hexp : (Repository.DeleteReport db id).expenses = db.expenses := rfl
  rw [hexp]
  exact hInv r (List.mem_filter.mp hr).1

/-! ## Report lifecycle theorems -/

/-- C1: the claim is right and the code is wrong.  The owner-or-admin gate is
HasAnyPermission against the multi-bit owner and admin masks, which tests a
nonempty intersection only, so the plain driver mask 3 passes it (3 AND the
owner mask is 3): a caller with exactly the driver mask approves a submitted
report of their tenant, where the code's own comment and error text say only
owner or admin can approve. -/
theorem approve_driver_mask_bug :
    HasAnyPermission PermissionDriver [PermissionOwner, PermissionAdmin] = true
    ∧ (ReportService.Approve dbC1 2 1 9 PermissionDriver 100).1 =
        .ok { rptC1 with
              status := "approved"
              approvedAt := some 100
              approvedById := some 9 } :=
  ⟨rfl, rfl⟩

/-- C2: the claim is right and the code is wrong.  Delete reaches the
owner-or-admin branch for any mask intersecting the owner or admin masks, so a
caller with exactly the driver mask (3) deletes an approved report belonging
to a different driver, where the code's own comment says a driver may delete
only their own draft reports. -/
theorem delete_driver_mask_bug :
    rptC2.driverId ≠ 7 ∧ rptC2.status = "approved"
    ∧ (ReportService.Delete dbC2 2 1 7 PermissionDriver).1 = .ok ()
    ∧ (ReportService.Delete dbC2 2 1 7 PermissionDriver).2.reports = [] :=
  ⟨by decide, rfl, rfl, rfl⟩

/-- Helper: a find? over an appended list succeeds when it succeeds on the
second part. -/
theorem find?_append_isSome {α : Type} (p : α → Bool) (l₁ l₂ : List α)
    (h : (l₂.find? p).isSome = true) :
    (((l₁ ++ l₂).find? p).isSome) = true := by
  rw [List.find?_append]
  cases hf : l₁.find? p with
  | none => simpa [Option.or] using h
  | some a => simp [Option.or]

/-- C9: ExpenseService.Create never validates the requested report id against
the caller's tenant: when the request names a report of a different tenant
(with a well-formed date, here the empty string meaning now), the call
succeeds, the expense is stored linked to the foreign report, and no report
row is touched, so the foreign report's total_expenses is not recomputed. -/
theorem expense_create_cross_tenant (db : DB) (tenantID createdByID : Nat)
    (req : CreateExpenseRequest) (rid : Nat) (report : WeeklyReport)
    (now : Int) (parse : String → Option Int)
    (hreq : req.reportId = some rid)
    (hrep : Repository.GetReportByID db rid = some report)
    (hten : report.tenantId ≠ tenantID)
    (hdate : req.date = "") :
    (∃ e, (ExpenseService.Create db tenantID createdByID req now parse).1 =
      .ok e)
    ∧ (ExpenseService.Create db tenantID createdByID req now parse).2.reports
        = db.reports
    ∧ (ExpenseService.Create db tenantID createdByID req now parse).2.expenses
        = db.expenses ++
          [{ id := db.nextId, tenantId := tenantID, reportId := some rid,
             taxiId := req.taxiId, category := req.category,
             amount := req.amount, reason := req.reason,
             receiptUrl := req.receiptUrl, date := now,
             createdById := createdByID }] := by
  have htenb : (report.tenantId == tenantID) = false := by
    simpa using hten
  simp only [ExpenseService.Create, hdate, hreq, Repository.CreateExpense,
    bne_self_eq_false, Bool.false_eq_true, if_false]
  have hrep1 :
      Repository.GetReportByID
        { db with
          expenses := db.expenses ++
            [{ id := db.nextId, tenantId := tenantID, reportId := some rid,
               taxiId := req.taxiId, category := req.category,
               amount := req.amount, reason := req.reason,
               receiptUrl := req.receiptUrl, date := now,
               createdById := createdByID }]
          nextId := db.nextId + 1 } rid = some report := hrep
  rw [hrep1]
  simp only [htenb, Bool.false_eq_true, if_false]
  refine ⟨?_, trivial, trivial⟩
  have hfind : ((db.expenses ++
      [({ id := db.nextId, tenantId := tenantID, reportId := some rid,
          taxiId := req.taxiId, category := req.category,
          amount := req.amount, reason := req.reason,
          receiptUrl := req.receiptUrl, date := now,
          createdById := createdByID } : Expense)]).find?
        (fun e => e.id == db.nextId)).isSome = true := by
    apply find?_append_isSome
    simp [List.find?]
  unfold fetchExpense Repository.GetExpenseByID
  cases hf : (db.expenses ++
      [({ id := db.nextId, tenantId := tenantID, reportId := some rid,
          taxiId := req.taxiId, category := req.category,
          amount := req.amount, reason := req.reason,
          receiptUrl := req.receiptUrl, date := now,
          createdById := createdByID } : Expense)]).find?
        (fun e => e.id == db.nextId) with
  | none => rw [hf] at hfind; simp at hfind
  | some e =>
    refine ⟨e, ?_⟩
    simp only [hf]

/-- C9 witness: a concrete cross-tenant expense creation (caller tenant 1,
report of tenant 2) succeeds, links the expense, and touches no report. -/
theorem expense_create_cross_tenant_witness :
    reqC9.reportId = some 1
    ∧ Repository.GetReportByID dbC9 1 = some rptC9
    ∧ rptC9.tenantId ≠ 1
    ∧ reqC9.date = ""
    ∧ ((∃ e, (ExpenseService.Create dbC9 1 9 reqC9 0 noParse).1 = .ok e)
      ∧ (ExpenseService.Create dbC9 1 9 reqC9 0 noParse).2.reports
          = dbC9.reports
      ∧ (ExpenseService.Create dbC9 1 9 reqC9 0 noParse).2.expenses
          = dbC9.expenses ++
            [{ id := dbC9.nextId, tenantId := 1, reportId := some 1,
               taxiId := reqC9.taxiId, category := reqC9.category,
               amount := reqC9.amount, reason := reqC9.reason,
               receiptUrl := reqC9.receiptUrl, date := 0,
               createdById := 9 }]) :=
  ⟨rfl, rfl, by decide, rfl,
    expense_create_cross_tenant dbC9 1 9 reqC9 1 rptC9 0 noParse rfl rfl
      (by decide) rfl⟩

/-! ## Tenant isolation theorems -/

/-- C7: for a report, expense or deposit whose tenant differs from the
caller's, GetByID, Update and Delete all fail with the not-found error string
of that entity (never a forbidden-style error) and return the store
unchanged. -/
theorem tenant_isolation (db : DB) (callerTenant : Nat)
    (rid eid did : Nat) (r : WeeklyReport) (e : Expense) (d : BankDeposit)
    (hr : Repository.GetReportByID db rid = some r)
    (hrt : r.tenantId ≠ callerTenant)
    (he : Repository.GetExpenseByID db eid = some e)
    (het : e.tenantId ≠ callerTenant)
    (hd : Repository.GetDepositByID db did = some d)
    (hdt : d.tenantId ≠ callerTenant) :
    ReportService.GetByID db rid callerTenant = (.error "report not found", db)
    ∧ (∀ driverID permission req,
        ReportService.Update db rid callerTenant driverID permission req =
          (.error "report not found", db))
    ∧ (∀ driverID permission,
        ReportService.Delete db rid callerTenant driverID permission =
          (.error "report not found", db))
    ∧ ExpenseService.GetByID db eid callerTenant =
        (.error "expense not found", db)
    ∧ (∀ req parse, ExpenseService.Update db eid callerTenant req parse =
        (.error "expense not found", db))
    ∧ ExpenseService.Delete db eid callerTenant =
        (.error "expense not found", db)
    ∧ DepositService.GetByID db did callerTenant =
        (.error "deposit not found", db)
    ∧ (∀ req parse, DepositService.Update db did callerTenant req parse =
        (.error "deposit not found", db))
    ∧ DepositService.Delete db did callerTenant =
        (.error "deposit not found", db) := by
  have hrb : (r.tenantId != callerTenant) = true := by simpa using hrt
  have heb : (e.tenantId != callerTenant) = true := by simpa using het
  have hdb : (d.tenantId != callerTenant) = true := by simpa using hdt
  refine ⟨?_, ?_, ?_, ?_, ?_, ?_, ?_, ?_, ?_⟩
  · simp [ReportService.GetByID, hr, hrb]
  · intro driverID permission req
    simp [ReportService.Update, hr, hrb]
  · intro driverID permission
    simp [ReportService.Delete, hr, hrb]
  · simp [ExpenseService.GetByID, he, heb]
  · intro req parse
    simp [ExpenseService.Update, he, heb]
  · simp [ExpenseService.Delete, he, heb]
  · simp [DepositService.GetByID, hd, hdb]
  · intro req parse
    simp [DepositService.Update, hd, hdb]
  · simp [DepositService.Delete, hd, hdb]

/-- C7 witness: with a caller of tenant 2 and report, expense and deposit of
tenant 1, all nine cross-tenant accesses return the not-found failure and the
unchanged store. -/
theorem tenant_isolation_witness :
    ReportService.GetByID dbC7 1 2 = (.error "report not found", dbC7)
    ∧ (∀ driverID permission req,
        ReportService.Update dbC7 1 2 driverID permission req =
          (.error "report not found", dbC7))
    ∧ (∀ driverID permission,
        ReportService.Delete dbC7 1 2 driverID permission =
          (.error "report not found", dbC7))
    ∧ ExpenseService.GetByID dbC7 2 2 = (.error "expense not found", dbC7)
    ∧ (∀ req parse, ExpenseService.Update dbC7 2 2 req parse =
        (.error "expense not found", dbC7))
    ∧ ExpenseService.Delete dbC7 2 2 = (.error "expense not found", dbC7)
    ∧ DepositService.GetByID dbC7 3 2 = (.error "deposit not found", dbC7)
    ∧ (∀ req parse, DepositService.Update dbC7 3 2 req parse =
        (.error "deposit not found", dbC7))
    ∧ DepositService.Delete dbC7 3 2 = (.error "deposit not found", dbC7) :=
  tenant_isolation dbC7 2 1 2 3 rptC7 expC7 depC7 rfl (by decide) rfl
    (by decide) rfl (by decide)

/-! ## Refresh-token theorems -/

/-- C8 counterexample: an unexpired session with the token exists, yet
RefreshToken does not return an access token, because the session's user row
is gone (AdminService.DeleteUser removes a user without removing their
sessions); the call fails with the user-not-found error instead. -/
theorem refresh_token_claim_false :
    (∃ s ∈ dbC8bad.sessions, s.token = "t" ∧ (0 : Int) < s.expiresAt)
    ∧ (∀ tok, (AuthService.RefreshToken dbC8bad "t" 0).1 ≠ .ok tok)
    ∧ (AuthService.RefreshToken dbC8bad "t" 0).1 = .error "user not found" := by
  refine ⟨⟨sessC8, by decide, rfl, by decide⟩, ?_, rfl⟩
  intro tok h
  have hv : (AuthService.RefreshToken dbC8bad "t" 0).1 =
      .error "user not found" := rfl
  rw [hv] at h
  exact Except.noConfusion h

/-- C8 amended: when an unexpired session with the token exists and its user
record exists, RefreshToken returns a fresh access token and leaves the whole
store, sessions included, unchanged (no rotation, no deletion); when the
session lookup misses (absent or expired) it fails with the invalid-refresh-
token error; and no path ever writes. -/
theorem refresh_token_spec (db : DB) (token : String) (now : Int) :
    (∀ s u, Repository.GetSessionByToken db token now = some s →
      Repository.GetUserByID db s.userId = some u →
      AuthService.RefreshToken db token now =
        (.ok (generateTokens u now).1, db))
    ∧ (Repository.GetSessionByToken db token now = none →
      AuthService.RefreshToken db token now =
        (.error "invalid refresh token", db))
    ∧ (AuthService.RefreshToken db token now).2 = db := by
  refine ⟨?_, ?_, ?_⟩
  · intro s u hs hu
    simp [AuthService.RefreshToken, hs, hu]
  · intro hs
    simp [AuthService.RefreshToken, hs]
  · unfold AuthService.RefreshToken
    cases hs : Repository.GetSessionByToken db token now with
    | none => rfl
    | some s =>
      cases hu : Repository.GetUserByID db s.userId with
      | none => simp [hu]
      | some u => simp [hu]

/-- C8 witness: a concrete refresh against an unexpired session whose user
exists yields an access token and an unchanged store. -/
theorem refresh_token_spec_witness :
    Repository.GetSessionByToken dbC8 "t" 0 = some sessC8
    ∧ Repository.GetUserByID dbC8 sessC8.userId = some userC8
    ∧ AuthService.RefreshToken dbC8 "t" 0 =
        (.ok (generateTokens userC8 0).1, dbC8) :=
  ⟨rfl, rfl, (refresh_token_spec dbC8 "t" 0).1 sessC8 userC8 rfl rfl⟩

/-- C6: for a report of the caller's tenant, Update succeeds exactly when the
caller's mask has the edit-reports bit and the report is not approved, or the
caller is the report's own driver and the report is draft; otherwise it fails
with one of the unauthorized, can-only-edit-draft or cannot-edit-approved
errors; and every successful update stores total_expenses recomputed as the
sum of the amounts of the expenses linked to the report. -/
theorem report_update_spec (db : DB) (id tenantID driverID : Nat)
    (permission : Int) (req : UpdateReportRequest) (report : WeeklyReport)
    (hrep : Repository.GetReportByID db id = some report)
    (hten : report.tenantId = tenantID) :
    ((∃ r, (ReportService.Update db id tenantID driverID permission req).1 =
        .ok r) ↔
      ((Int.land permission PermissionEditReports ≠ 0
          ∧ report.status ≠ "approved")
        ∨ (report.driverId = driverID ∧ report.status = "draft")))
    ∧ (∀ r,
        (ReportService.Update db id tenantID driverID permission req).1 =
          .ok r →
        r.totalExpenses =
          ((Repository.GetExpensesByReport db id).map (fun e => e.amount)).sum)
    ∧ ((∃ r, (ReportService.Update db id tenantID driverID permission req).1 =
          .ok r)
      ∨ (ReportService.Update db id tenantID driverID permission req).1 =
          .error "unauthorized"
      ∨ (ReportService.Update db id tenantID driverID permission req).1 =
          .error "can only edit draft reports"
      ∨ (ReportService.Update db id tenantID driverID permission req).1 =
          .error "cannot edit approved reports") := by
  have hid : report.id = id :=
    beq_iff_eq.mp
      (@List.find?_some _ (fun x : WeeklyReport => x.id == id) report
        db.reports hrep)
  have hten_b : (report.tenantId != tenantID) = false := by simp [hten]
  have hEditIff := hasPermission_editReports permission
  have hrep2 : Repository.GetReportByID db report.id = some report := by
    rw [hid]; exact hrep
  by_cases hE : HasPermission permission PermissionEditReports = true
  · have hland : Int.land permission PermissionEditReports ≠ 0 := hEditIff.mp hE
    by_cases hA : report.status = "approved"
    · have hA_b : (report.status == "approved") = true := by simp [hA]
      have hres :
          (ReportService.Update db id tenantID driverID permission req).1 =
            .error "cannot edit approved reports" := by
        simp [ReportService.Update, hrep, hten_b, hE, hA_b]
      refine ⟨?_, ?_, ?_⟩
      · constructor
        · rintro ⟨r, hr⟩
          rw [hres] at hr
          exact Except.noConfusion hr
        · rintro (⟨_, hna⟩ | ⟨_, hdr⟩)
          · exact absurd hA hna
          · exact absurd (hA.symm.trans hdr) (by decide)
      · intro r hr
        rw [hres] at hr
        exact Except.noConfusion hr
      · exact Or.inr (Or.inr (Or.inr hres))
    · have hA_b : (report.status == "approved") = false := by simp [hA]
      have hres :
          (ReportService.Update db id tenantID driverID permission req).1 =
            .ok { report with
                  weekStartDate := if req.weekStartDate != 0 then
                      req.weekStartDate
                    else report.weekStartDate
                  earnings := if req.earnings != 0 then req.earnings
                    else report.earnings
                  notes := if req.notes != "" then req.notes else report.notes
                  totalExpenses :=
                    ((Repository.GetExpensesByReport db report.id).map
                      (fun e => e.amount)).sum } := by
        simp only [ReportService.Update, hrep, hten_b, hE, hA_b,
          Bool.not_true, Bool.false_and, Bool.false_eq_true, if_false,
          Bool.true_and, Bool.and_self]
        exact fetchReport_after_update db report.id report _ hrep2 rfl
      refine ⟨?_, ?_, ?_⟩
      · exact iff_of_true ⟨_, hres⟩ (Or.inl ⟨hland, hA⟩)
      · intro r hr
        rw [hres] at hr
        have hr2 := Except.ok.inj hr
        rw [← hr2, ← hid]
      · exact Or.inl ⟨_, hres⟩
  · have hland : ¬ Int.land permission PermissionEditReports ≠ 0 :=
      fun h => hE (hEditIff.mpr h)
    have hE_b : HasPermission permission PermissionEditReports = false := by
      revert hE
      cases HasPermission permission PermissionEditReports <;> simp
    by_cases hD : report.driverId = driverID
    · have hD_b : (report.driverId != driverID) = false := by simp [hD]
      by_cases hS : report.status = "draft"
      · have hS_b : (report.status != "draft") = false := by simp [hS]
        have hres :
            (ReportService.Update db id tenantID driverID permission req).1 =
              .ok { report with
                    weekStartDate := if req.weekStartDate != 0 then
                        req.weekStartDate
                      else report.weekStartDate
                    earnings := if req.earnings != 0 then req.earnings
                      else report.earnings
                    notes := if req.notes != "" then req.notes
                      else report.notes
                    totalExpenses :=
                      ((Repository.GetExpensesByReport db report.id).map
                        (fun e => e.amount)).sum } := by
          simp only [ReportService.Update, hrep, hten_b, hE_b, hD_b, hS_b,
            Bool.not_false, Bool.true_and, Bool.false_and, Bool.false_eq_true,
            if_false, Bool.and_self]
          exact fetchReport_after_update db report.id report _ hrep2 rfl
        refine ⟨?_, ?_, ?_⟩
        · exact iff_of_true ⟨_, hres⟩ (Or.inr ⟨hD, hS⟩)
        · intro r hr
          rw [hres] at hr
          have hr2 := Except.ok.inj hr
          rw [← hr2, ← hid]
        · exact Or.inl ⟨_, hres⟩
      · have hS_b : (report.status != "draft") = true := by simp [hS]
        have hres :
            (ReportService.Update db id tenantID driverID permission req).1 =
              .error "can only edit draft reports" := by
          simp [ReportService.Update, hrep, hten_b, hE_b, hD_b, hS_b]
        refine ⟨?_, ?_, ?_⟩
        · constructor
          · rintro ⟨r, hr⟩
            rw [hres] at hr
            exact Except.noConfusion hr
          · rintro (⟨hl, _⟩ | ⟨_, hdr⟩)
            · exact absurd hl hland
            · exact absurd hdr hS
        · intro r hr
          rw [hres] at hr
          exact Except.noConfusion hr
        · exact Or.inr (Or.inr (Or.inl hres))
    · have hD_b : (report.driverId != driverID) = true := by simp [hD]
      have hres :
          (ReportService.Update db id tenantID driverID permission req).1 =
            .error "unauthorized" := by
        simp [ReportService.Update, hrep, hten_b, hE_b, hD_b]
      refine ⟨?_, ?_, ?_⟩
      · constructor
        · rintro ⟨r, hr⟩
          rw [hres] at hr
          exact Except.noConfusion hr
        · rintro (⟨hl, _⟩ | ⟨hdr, _⟩)
          · exact absurd hl hland
          · exact absurd hdr hD
      · intro r hr
        rw [hres] at hr
        exact Except.noConfusion hr
      · exact Or.inr (Or.inl hres)

/-- C6 witness: a driver (mask 3, no edit bit) updating their own draft
report succeeds and the stored total_expenses is the recomputed sum (0 here,
overwriting the stale 7 in the fixture). -/
theorem report_update_spec_witness :
    Repository.GetReportByID dbC6 1 = some rptC6
    ∧ rptC6.tenantId = 1
    ∧ (((∃ r, (ReportService.Update dbC6 1 1 5 3 reqC6).1 = .ok r) ↔
        ((Int.land 3 PermissionEditReports ≠ 0 ∧ rptC6.status ≠ "approved")
          ∨ (rptC6.driverId = 5 ∧ rptC6.status = "draft")))
      ∧ (∀ r, (ReportService.Update dbC6 1 1 5 3 reqC6).1 = .ok r →
          r.totalExpenses =
            ((Repository.GetExpensesByReport dbC6 1).map
              (fun e => e.amount)).sum)
      ∧ ((∃ r, (ReportService.Update dbC6 1 1 5 3 reqC6).1 = .ok r)
        ∨ (ReportService.Update dbC6 1 1 5 3 reqC6).1 = .error "unauthorized"
        ∨ (ReportService.Update dbC6 1 1 5 3 reqC6).1 =
            .error "can only edit draft reports"
        ∨ (ReportService.Update dbC6 1 1 5 3 reqC6).1 =
            .error "cannot edit approved reports")) :=
  ⟨rfl, rfl, report_update_spec dbC6 1 1 5 3 reqC6 rptC6 rfl rfl⟩

/-- Helper for C10, report part: on any successful report Update, every
zero-valued request field leaves the stored field unchanged, and earnings
cannot become 0 unless it already was 0. -/
theorem report_update_zero_fields (db : DB) (id tenantID driverID : Nat)
    (permission : Int) (req : UpdateReportRequest) (old r : WeeklyReport)
    (hold : Repository.GetReportByID db id = some old)
    (hok : (ReportService.Update db id tenantID driverID permission req).1 =
      .ok r) :
    (req.weekStartDate = 0 → r.weekStartDate = old.weekStartDate)
    ∧ (req.earnings = 0 → r.earnings = old.earnings)
    ∧ (req.notes = "" → r.notes = old.notes)
    ∧ (r.earnings = 0 → old.earnings = 0) := by
  have hid : old.id = id :=
    beq_iff_eq.mp
      (@List.find?_some _ (fun x : WeeklyReport => x.id == id) old
        db.reports hold)
  have hold2 : Repository.GetReportByID db old.id = some old := by
    rw [hid]; exact hold
  simp only [ReportService.Update, hold] at hok
  split at hok
  · exact absurd hok (by simp)
  · split at hok
    · exact absurd hok (by simp)
    · split at hok
      · exact absurd hok (by simp)
      · split at hok
        · exact absurd hok (by simp)
        · have hfe := fetchReport_after_update db old.id old
            { old with
              weekStartDate := if req.weekStartDate != 0 then
                  req.weekStartDate
                else old.weekStartDate
              earnings := if req.earnings != 0 then req.earnings
                else old.earnings
              notes := if req.notes != "" then req.notes else old.notes
              totalExpenses :=
                ((Repository.GetExpensesByReport db old.id).map
                  (fun e => e.amount)).sum }
            hold2 rfl
          simp only [] at hok
          rw [hfe] at hok
          have hr : r = _ := (Except.ok.inj hok).symm
          subst hr
          refine ⟨?_, ?_, ?_, ?_⟩
          · intro hz
            simp [hz]
          · intro hz
            simp [hz]
          · intro hz
            simp [hz]
          · intro h0
            by_cases he : req.earnings = 0
            · simpa [he] using h0
            · simp only [*] at h0
              simp [bne_iff_ne.mpr he] at h0
              exact absurd h0 he

/-- Helper for C10, expense part: on any successful expense Update, every
zero-valued request field leaves the stored field unchanged, and the amount
cannot become 0 unless it already was 0. -/
theorem expense_update_zero_fields (db : DB) (id tenantID : Nat)
    (req : UpdateExpenseRequest) (parse : String → Option Int)
    (old r : Expense)
    (hold : Repository.GetExpenseByID db id = some old)
    (hok : (ExpenseService.Update db id tenantID req parse).1 = .ok r) :
    (req.category = "" → r.category = old.category)
    ∧ (req.amount = 0 → r.amount = old.amount)
    ∧ (req.reason = "" → r.reason = old.reason)
    ∧ (req.receiptUrl = "" → r.receiptUrl = old.receiptUrl)
    ∧ (req.date = "" → r.date = old.date)
    ∧ (r.amount = 0 → old.amount = 0) := by
  have hid : old.id = id :=
    beq_iff_eq.mp
      (@List.find?_some _ (fun x : Expense => x.id == id) old
        db.expenses hold)
  have hold2 : Repository.GetExpenseByID db old.id = some old := by
    rw [hid]; exact hold
  simp only [ExpenseService.Update, hold] at hok
  split at hok
  · exact absurd hok (by simp)
  · split at hok
    · exact absurd hok (by simp)
    · rename_i dateVal hdv
      have hfe := fetchExpense_after_update db old.id old
        (applyExpenseUpdate old req dateVal) hold2 rfl
      have hexp :
          (match old.reportId with
            | none =>
              Repository.UpdateExpense db (applyExpenseUpdate old req dateVal)
            | some rid =>
              recomputeReportTotal
                (Repository.UpdateExpense db
                  (applyExpenseUpdate old req dateVal)) rid).expenses =
          (Repository.UpdateExpense db
            (applyExpenseUpdate old req dateVal)).expenses := by
        cases old.reportId with
        | none => rfl
        | some rid => exact recompute_expenses_eq _ rid
      simp only [] at hok
      rw [fetchExpense_congr _ _ old.id hexp, hfe] at hok
      have hr : r = applyExpenseUpdate old req dateVal :=
        (Except.ok.inj hok).symm
      subst hr
      refine ⟨?_, ?_, ?_, ?_, ?_, ?_⟩
      · intro hz
        simp [applyExpenseUpdate, hz]
      · intro hz
        simp [applyExpenseUpdate, hz]
      · intro hz
        simp [applyExpenseUpdate, hz]
      · intro hz
        simp [applyExpenseUpdate, hz]
      · intro hz
        rw [hz] at hdv
        simp only [bne_self_eq_false, Bool.false_eq_true, if_false] at hdv
        have hdn : dateVal = none := (Except.ok.inj hdv).symm
        simp [applyExpenseUpdate, hdn]
      · intro h0
        by_cases he : req.amount = 0
        · simpa [applyExpenseUpdate, he] using h0
        · simp only [applyExpenseUpdate] at h0
          simp [bne_iff_ne.mpr he] at h0
          exact absurd h0 he

/-- Helper for C10, deposit part: on any successful deposit Update, every
zero-valued request field leaves the stored field unchanged, and the amount
cannot become 0 unless it already was 0. -/
theorem deposit_update_zero_fields (db : DB) (id tenantID : Nat)
    (req : UpdateDepositRequest) (parse : String → Option Int)
    (old r : BankDeposit)
    (hold : Repository.GetDepositByID db id = some old)
    (hok : (DepositService.Update db id tenantID req parse).1 = .ok r) :
    (req.amount = 0 → r.amount = old.amount)
    ∧ (req.depositDate = "" → r.depositDate = old.depositDate)
    ∧ (req.periodStart = "" → r.periodStart = old.periodStart)
    ∧ (req.periodEnd = "" → r.periodEnd = old.periodEnd)
    ∧ (req.bankAccount = "" → r.bankAccount = old.bankAccount)
    ∧ (req.proofUrl = "" → r.proofUrl = old.proofUrl)
    ∧ (req.notes = "" → r.notes = old.notes)
    ∧ (r.amount = 0 → old.amount = 0) := by
  have hid : old.id = id :=
    beq_iff_eq.mp
      (@List.find?_some _ (fun x : BankDeposit => x.id == id) old
        db.deposits hold)
  have hold2 : Repository.GetDepositByID db old.id = some old := by
    rw [hid]; exact hold
  simp only [DepositService.Update, hold] at hok
  split at hok
  · exact absurd hok (by simp)
  · have hfe := fetchDeposit_after_update db old.id old
      { old with
        amount := if req.amount != 0 then req.amount else old.amount
        depositDate := if req.depositDate != "" then
            (parse req.depositDate).getD 0
          else old.depositDate
        periodStart := if req.periodStart != "" then
            (parse req.periodStart).getD 0
          else old.periodStart
        periodEnd := if req.periodEnd != "" then
            (parse req.periodEnd).getD 0
          else old.periodEnd
        bankAccount := if req.bankAccount != "" then req.bankAccount
          else old.bankAccount
        proofUrl := if req.proofUrl != "" then req.proofUrl
          else old.proofUrl
        notes := if req.notes != "" then req.notes else old.notes }
      hold2 rfl
    simp only [] at hok
    rw [hfe] at hok
    have hr : r = _ := (Except.ok.inj hok).symm
    subst hr
    refine ⟨?_, ?_, ?_, ?_, ?_, ?_, ?_, ?_⟩
    · intro hz
      simp [hz]
    · intro hz
      simp [hz]
    · intro hz
      simp [hz]
    · intro hz
      simp [hz]
    · intro hz
      simp [hz]
    · intro hz
      simp [hz]
    · intro hz
      simp [hz]
    · intro h0
      by_cases he : req.amount = 0
      · simpa [he] using h0
      · simp only [*] at h0
        simp [bne_iff_ne.mpr he] at h0
        exact absurd h0 he

/-- C10: in the report, expense and deposit Update operations, every request
field carrying its zero value (0, empty string, zero time) leaves the stored
field unchanged; consequently a report's earnings and an expense's or
deposit's amount can never be set to 0 through Update. -/
theorem update_zero_fields_spec :
    (∀ db id tenantID driverID permission req
        (old r : WeeklyReport),
      Repository.GetReportByID db id = some old →
      (ReportService.Update db id tenantID driverID permission req).1 =
        .ok r →
      (req.weekStartDate = 0 → r.weekStartDate = old.weekStartDate)
      ∧ (req.earnings = 0 → r.earnings = old.earnings)
      ∧ (req.notes = "" → r.notes = old.notes)
      ∧ (r.earnings = 0 → old.earnings = 0))
    ∧ (∀ db id tenantID req parse (old r : Expense),
      Repository.GetExpenseByID db id = some old →
      (ExpenseService.Update db id tenantID req parse).1 = .ok r →
      (req.category = "" → r.category = old.category)
      ∧ (req.amount = 0 → r.amount = old.amount)
      ∧ (req.reason = "" → r.reason = old.reason)
      ∧ (req.receiptUrl = "" → r.receiptUrl = old.receiptUrl)
      ∧ (req.date = "" → r.date = old.date)
      ∧ (r.amount = 0 → old.amount = 0))
    ∧ (∀ db id tenantID req parse (old r : BankDeposit),
      Repository.GetDepositByID db id = some old →
      (DepositService.Update db id tenantID req parse).1 = .ok r →
      (req.amount = 0 → r.amount = old.amount)
      ∧ (req.depositDate = "" → r.depositDate = old.depositDate)
      ∧ (req.periodStart = "" → r.periodStart = old.periodStart)
      ∧ (req.periodEnd = "" → r.periodEnd = old.periodEnd)
      ∧ (req.bankAccount = "" → r.bankAccount = old.bankAccount)
      ∧ (req.proofUrl = "" → r.proofUrl = old.proofUrl)
      ∧ (req.notes = "" → r.notes = old.notes)
      ∧ (r.amount = 0 → old.amount = 0)) :=
  ⟨fun db id tID dID perm req old r hold hok =>
      report_update_zero_fields db id tID dID perm req old r hold hok,
    fun db id tID req parse old r hold hok =>
      expense_update_zero_fields db id tID req parse old r hold hok,
    fun db id tID req parse old r hold hok =>
      deposit_update_zero_fields db id tID req parse old r hold hok⟩

/-- C10 witness: concrete all-zero update requests against a report, an
expense and a deposit succeed and change nothing the claim protects. -/
theorem update_zero_fields_witness :
    Repository.GetReportByID dbC10 1 = some rptC6
    ∧ (ReportService.Update dbC10 1 1 5 PermissionOwner zeroReportReq).1 =
        .ok { rptC6 with totalExpenses := 0 }
    ∧ ((zeroReportReq.weekStartDate = 0 →
          ({ rptC6 with totalExpenses := 0 } : WeeklyReport).weekStartDate =
            rptC6.weekStartDate)
      ∧ (zeroReportReq.earnings = 0 →
          ({ rptC6 with totalExpenses := 0 } : WeeklyReport).earnings =
            rptC6.earnings)
      ∧ (zeroReportReq.notes = "" →
          ({ rptC6 with totalExpenses := 0 } : WeeklyReport).notes =
            rptC6.notes)
      ∧ (({ rptC6 with totalExpenses := 0 } : WeeklyReport).earnings = 0 →
          rptC6.earnings = 0))
    ∧ Repository.GetExpenseByID dbC10 2 = some expC10
    ∧ (ExpenseService.Update dbC10 2 1 zeroExpenseReq noParse).1 = .ok expC10
    ∧ (zeroExpenseReq.amount = 0 → expC10.amount = expC10.amount)
    ∧ Repository.GetDepositByID dbC10 3 = some depC10
    ∧ (DepositService.Update dbC10 3 1 zeroDepositReq noParse).1 = .ok depC10
    ∧ (zeroDepositReq.amount = 0 → depC10.amount = depC10.amount) :=
  ⟨rfl, rfl,
    update_zero_fields_spec.1 dbC10 1 1 5 PermissionOwner zeroReportReq rptC6
      { rptC6 with totalExpenses := 0 } rfl rfl,
    rfl, rfl,
    fun hz =>
      (update_zero_fields_spec.2.1 dbC10 2 1 zeroExpenseReq noParse expC10
        expC10 rfl rfl).2.1 hz,
    rfl, rfl,
    fun hz =>
      (update_zero_fields_spec.2.2 dbC10 3 1 zeroDepositReq noParse depC10
        depC10 rfl rfl).1 hz⟩

/-! ## Invariant preservation per operation (claim C3) -/

/-- Helper for C3: report creation starts at total 0 with nothing linked. -/
theorem inv_report_create (db : DB) (hWF : DBWF db)
    (hInv : reportTotalsInv db) (tenantID driverID : Nat)
    (req : CreateReportRequest) :
    reportTotalsInv (ReportService.Create db tenantID driverID req).2 := by
  unfold ReportService.Create
  split
  · exact hInv
  · simp only [Repository.CreateReport]
    split
    · exact hInv
    · intro r hr
      rcases List.mem_append.mp hr with hrold | hrnew
      · exact hInv r hrold
      · rw [List.mem_singleton] at hrnew
        subst hrnew
        exact (sumFor_not_linked db.expenses db.nextId
          (fun e he hc =>
            absurd ((hWF.2.2.2 e he).2 db.nextId hc) (lt_irrefl _))).symm

/-- Helper for C3: GetByID writes nothing. -/
theorem inv_report_getbyid (db : DB) (hInv : reportTotalsInv db)
    (id tenantID : Nat) :
    reportTotalsInv (ReportService.GetByID db id tenantID).2 := by
  unfold ReportService.GetByID
  split
  · exact hInv
  · split <;> exact hInv

/-- Helper for C3: List writes nothing. -/
theorem inv_report_list (db : DB) (hInv : reportTotalsInv db)
    (tenantID userID : Nat) (permission : Int) :
    reportTotalsInv (ReportService.List db tenantID userID permission).2 := by
  unfold ReportService.List
  split <;> exact hInv

/-- Helper for C3: report Update recomputes the stored total itself. -/
theorem inv_report_update (db : DB) (hInv : reportTotalsInv db)
    (id tenantID driverID : Nat) (permission : Int)
    (req : UpdateReportRequest) :
    reportTotalsInv
      (ReportService.Update db id tenantID driverID permission req).2 := by
  cases hrep : Repository.GetReportByID db id with
  | none =>
    simp only [ReportService.Update, hrep]
    exact hInv
  | some report =>
    simp only [ReportService.Update, hrep]
    by_cases hten : (report.tenantId != tenantID) = true
    · rw [if_pos hten]
      exact hInv
    · rw [if_neg hten]
      by_cases h1 : (!HasPermission permission PermissionEditReports
          && report.driverId != driverID) = true
      · rw [if_pos h1]
        exact hInv
      · rw [if_neg h1]
        by_cases h2 : (!HasPermission permission PermissionEditReports
            && report.status != "draft") = true
        · rw [if_pos h2]
          exact hInv
        · rw [if_neg h2]
          by_cases h3 : (HasPermission permission PermissionEditReports
              && report.status == "approved") = true
          · rw [if_pos h3]
            exact hInv
          · rw [if_neg h3]
            exact inv_updateReport_relaxed db _
              (fun x hx _ => hInv x hx) rfl

/-- Helper for C3: Submit copies the stored total unchanged. -/
theorem inv_report_submit (db : DB) (hInv : reportTotalsInv db)
    (id tenantID driverID : Nat) (now : Int) :
    reportTotalsInv (ReportService.Submit db id tenantID driverID now).2 := by
  unfold ReportService.Submit
  split
  · exact hInv
  · rename_i report hrep
    split
    · exact hInv
    · split
      · exact hInv
      · split
        · exact hInv
        · exact inv_updateReport_relaxed db _
            (fun x hx _ => hInv x hx)
            (hInv report (List.mem_of_find?_eq_some hrep))

/-- Helper for C3: Approve copies the stored total unchanged. -/
theorem inv_report_approve (db : DB) (hInv : reportTotalsInv db)
    (id tenantID approvedByID : Nat) (permission : Int) (now : Int) :
    reportTotalsInv
      (ReportService.Approve db id tenantID approvedByID permission now).2 := by
  unfold ReportService.Approve
  split
  · exact hInv
  · split
    · exact hInv
    · rename_i report hrep
      split
      · exact hInv
      · split
        · exact hInv
        · exact inv_updateReport_relaxed db _
            (fun x hx _ => hInv x hx)
            (hInv report (List.mem_of_find?_eq_some hrep))

/-- Helper for C3: Reject copies the stored total unchanged. -/
theorem inv_report_reject (db : DB) (hInv : reportTotalsInv db)
    (id tenantID : Nat) :
    reportTotalsInv (ReportService.Reject db id tenantID).2 := by
  unfold ReportService.Reject
  split
  · exact hInv
  · rename_i report hrep
    split
    · exact hInv
    · split
      · exact hInv
      · exact inv_updateReport_relaxed db _
          (fun x hx _ => hInv x hx)
          (hInv report (List.mem_of_find?_eq_some hrep))

/-- Helper for C3: report Delete removes a row and touches no expense. -/
theorem inv_report_delete (db : DB) (hInv : reportTotalsInv db)
    (id tenantID driverID : Nat) (permission : Int) :
    reportTotalsInv
      (ReportService.Delete db id tenantID driverID permission).2 := by
  unfold ReportService.Delete
  split
  · exact hInv
  · split
    · exact hInv
    · split
      · exact inv_deleteReport db id hInv
      · split
        · split
          · exact hInv
          · split
            · exact hInv
            · exact inv_deleteReport db id hInv
        · exact hInv

/-- Helper for C3: state reached after appending an expense and running the
tenant-guarded recompute block of ExpenseService.Create, under the amended
hypothesis that a referenced existing report belongs to the caller's tenant. -/
theorem inv_expense_append (db : DB) (hInv : reportTotalsInv db)
    (tenantID : Nat) (e : Expense)
    (hte : ∀ rid report, e.reportId = some rid →
      Repository.GetReportByID db rid = some report →
      report.tenantId = tenantID) :
    reportTotalsInv
      (match e.reportId with
       | none =>
         { db with expenses := db.expenses ++ [e], nextId := db.nextId + 1 }
       | some rid =>
         match Repository.GetReportByID
             { db with
               expenses := db.expenses ++ [e]
               nextId := db.nextId + 1 } rid with
         | none =>
           { db with expenses := db.expenses ++ [e], nextId := db.nextId + 1 }
         | some report =>
           if report.tenantId == tenantID then
             recomputeReportTotal
               { db with
                 expenses := db.expenses ++ [e]
                 nextId := db.nextId + 1 } rid
           else
             { db with
               expenses := db.expenses ++ [e]
               nextId := db.nextId + 1 }) := by
  cases hrid : e.reportId with
  | none =>
    intro r hr
    rw [sumFor_append_other db.expenses e r.id (by rw [hrid]; simp)]
    exact hInv r hr
  | some rid =>
    cases hrep : Repository.GetReportByID
        { db with expenses := db.expenses ++ [e], nextId := db.nextId + 1 }
        rid with
    | none =>
      simp only [hrep]
      intro r hr
      have hne : r.id ≠ rid := by
        have hnone := List.find?_eq_none.mp hrep r hr
        simpa using fun hc => hnone (beq_iff_eq.mpr hc)
      rw [sumFor_append_other db.expenses e r.id
        (by rw [hrid]; intro hc; exact hne (Option.some.inj hc).symm)]
      exact hInv r hr
    | some report =>
      have hrep0 : Repository.GetReportByID db rid = some report := hrep
      have hb : (report.tenantId == tenantID) = true :=
        beq_iff_eq.mpr (hte rid report hrid hrep0)
      simp only [hrep, hb, if_true]
      unfold recomputeReportTotal
      rw [hrep]
      have hrid_eq : report.id = rid :=
        beq_iff_eq.mp
          (@List.find?_some _ (fun t : WeeklyReport => t.id == rid) report
            db.reports hrep0)
      apply inv_updateReport_relaxed
      · intro x hx hne
        have hxe : sumFor (db.expenses ++ [e]) x.id = sumFor db.expenses x.id :=
          sumFor_append_other db.expenses e x.id
            (by
              rw [hrid]
              intro hc
              exact hne (by rw [← (Option.some.inj hc), ← hrid_eq]))
        rw [show ({ db with
            expenses := db.expenses ++ [e]
            nextId := db.nextId + 1 } : DB).expenses = db.expenses ++ [e]
          from rfl, hxe]
        exact hInv x hx
      · rfl

/-- Helper for C3: state reached after saving an expense with unchanged id and
report link and running the recompute block shared by Update and Delete. -/
theorem inv_expense_saved (db : DB) (hInv : reportTotalsInv db)
    (e0 e1 : Expense)
    (huniq : ∀ x ∈ db.expenses, x.id = e0.id → x = e0)
    (hid : e1.id = e0.id) (hridkeep : e1.reportId = e0.reportId) :
    reportTotalsInv
      (match e0.reportId with
       | none => Repository.UpdateExpense db e1
       | some rid =>
         recomputeReportTotal (Repository.UpdateExpense db e1) rid) := by
  cases hr0 : e0.reportId with
  | none =>
    intro r hr
    rw [show (Repository.UpdateExpense db e1).expenses =
      db.expenses.map (fun x => if x.id == e1.id then e1 else x) from rfl]
    rw [sumFor_map_update_unlinked db.expenses e0 e1 r.id huniq
      (by rw [hr0]; simp) (by rw [hridkeep, hr0]; simp) hid]
    exact hInv r hr
  | some rid =>
    unfold recomputeReportTotal
    cases hrep : Repository.GetReportByID (Repository.UpdateExpense db e1)
        rid with
    | none =>
      simp only [hrep]
      intro r hr
      have hne : r.id ≠ rid := by
        have hnone := List.find?_eq_none.mp hrep r hr
        simpa using fun hc => hnone (beq_iff_eq.mpr hc)
      rw [show (Repository.UpdateExpense db e1).expenses =
        db.expenses.map (fun x => if x.id == e1.id then e1 else x) from rfl]
      rw [sumFor_map_update_unlinked db.expenses e0 e1 r.id huniq
        (by rw [hr0]; intro hc; exact hne (Option.some.inj hc).symm)
        (by rw [hridkeep, hr0]; intro hc; exact hne (Option.some.inj hc).symm)
        hid]
      exact hInv r hr
    | some report =>
      simp only [hrep]
      have hrep0 : Repository.GetReportByID db rid = some report := hrep
      have hrid_eq : report.id = rid :=
        beq_iff_eq.mp
          (@List.find?_some _ (fun t : WeeklyReport => t.id == rid) report
            db.reports hrep0)
      apply inv_updateReport_relaxed
      · intro x hx hne
        have hne2 : x.id ≠ rid := fun hc => hne (by rw [hc, ← hrid_eq])
        rw [show (Repository.UpdateExpense db e1).expenses =
          db.expenses.map (fun x => if x.id == e1.id then e1 else x) from rfl]
        rw [sumFor_map_update_unlinked db.expenses e0 e1 x.id huniq
          (by rw [hr0]; intro hc; exact hne2 (Option.some.inj hc).symm)
          (by rw [hridkeep, hr0]; intro hc;
              exact hne2 (Option.some.inj hc).symm)
          hid]
        exact hInv x hx
      · rfl

/-- Helper for C3: state reached after removing an expense and running the
recompute block of ExpenseService.Delete. -/
theorem inv_expense_removed (db : DB) (hInv : reportTotalsInv db)
    (e0 : Expense)
    (huniq : ∀ x ∈ db.expenses, x.id = e0.id → x = e0) :
    reportTotalsInv
      (match e0.reportId with
       | none => Repository.DeleteExpense db e0.id
       | some rid =>
         recomputeReportTotal (Repository.DeleteExpense db e0.id) rid) := by
  cases hr0 : e0.reportId with
  | none =>
    intro r hr
    rw [show (Repository.DeleteExpense db e0.id).expenses =
      db.expenses.filter (fun x => x.id != e0.id) from rfl]
    rw [sumFor_filter_ne db.expenses e0 r.id huniq (by rw [hr0]; simp)]
    exact hInv r hr
  | some rid =>
    unfold recomputeReportTotal
    cases hrep : Repository.GetReportByID (Repository.DeleteExpense db e0.id)
        rid with
    | none =>
      simp only [hrep]
      intro r hr
      have hne : r.id ≠ rid := by
        have hnone := List.find?_eq_none.mp hrep r hr
        simpa using fun hc => hnone (beq_iff_eq.mpr hc)
      rw [show (Repository.DeleteExpense db e0.id).expenses =
        db.expenses.filter (fun x => x.id != e0.id) from rfl]
      rw [sumFor_filter_ne db.expenses e0 r.id huniq
        (by rw [hr0]; intro hc; exact hne (Option.some.inj hc).symm)]
      exact hInv r hr
    | some report =>
      simp only [hrep]
      have hrep0 : Repository.GetReportByID db rid = some report := hrep
      have hrid_eq : report.id = rid :=
        beq_iff_eq.mp
          (@List.find?_some _ (fun t : WeeklyReport => t.id == rid) report
            db.reports hrep0)
      apply inv_updateReport_relaxed
      · intro x hx hne
        have hne2 : x.id ≠ rid := fun hc => hne (by rw [hc, ← hrid_eq])
        rw [show (Repository.DeleteExpense db e0.id).expenses =
          db.expenses.filter (fun x => x.id != e0.id) from rfl]
        rw [sumFor_filter_ne db.expenses e0 x.id huniq
          (by rw [hr0]; intro hc; exact hne2 (Option.some.inj hc).symm)]
        exact hInv x hx
      · rfl

/-- Helper for C3: ExpenseService.Create preserves the invariant when any
referenced existing report belongs to the caller's tenant. -/
theorem inv_expense_create (db : DB) (hInv : reportTotalsInv db)
    (tenantID createdByID : Nat) (req : CreateExpenseRequest) (now : Int)
    (parse : String → Option Int)
    (hte : ∀ rid report, req.reportId = some rid →
      Repository.GetReportByID db rid = some report →
      report.tenantId = tenantID) :
    reportTotalsInv
      (ExpenseService.Create db tenantID createdByID req now parse).2 := by
  simp only [ExpenseService.Create, Repository.CreateExpense]
  by_cases hd : (req.date != "") = true
  · rw [if_pos hd]
    cases hp : parse req.date with
    | none =>
      simp only [hp]
      exact hInv
    | some d =>
      simp only [hp]
      exact inv_expense_append db hInv tenantID
        { id := db.nextId, tenantId := tenantID, reportId := req.reportId,
          taxiId := req.taxiId, category := req.category,
          amount := req.amount, reason := req.reason,
          receiptUrl := req.receiptUrl, date := d,
          createdById := createdByID } hte
  · rw [if_neg hd]
    exact inv_expense_append db hInv tenantID
      { id := db.nextId, tenantId := tenantID, reportId := req.reportId,
        taxiId := req.taxiId, category := req.category,
        amount := req.amount, reason := req.reason,
        receiptUrl := req.receiptUrl, date := now,
        createdById := createdByID } hte

/-- Helper for C3: expense GetByID writes nothing. -/
theorem inv_expense_getbyid (db : DB) (hInv : reportTotalsInv db)
    (id tenantID : Nat) :
    reportTotalsInv (ExpenseService.GetByID db id tenantID).2 := by
  unfold ExpenseService.GetByID
  split
  · exact hInv
  · split <;> exact hInv

/-- Helper for C3: expense List writes nothing. -/
theorem inv_expense_list (db : DB) (hInv : reportTotalsInv db)
    (tenantID : Nat) :
    reportTotalsInv (ExpenseService.List db tenantID).2 :=
  hInv

/-- Helper for C3: ExpenseService.Update recomputes the linked report. -/
theorem inv_expense_update (db : DB) (hWF : DBWF db)
    (hInv : reportTotalsInv db) (id tenantID : Nat)
    (req : UpdateExpenseRequest) (parse : String → Option Int) :
    reportTotalsInv (ExpenseService.Update db id tenantID req parse).2 := by
  cases he0 : Repository.GetExpenseByID db id with
  | none =>
    simp only [ExpenseService.Update, he0]
    exact hInv
  | some e0 =>
    have huniq : ∀ x ∈ db.expenses, x.id = e0.id → x = e0 :=
      fun x hx hxe =>
        hWF.2.1 x hx e0 (List.mem_of_find?_eq_some he0) hxe
    simp only [ExpenseService.Update, he0]
    by_cases hten : (e0.tenantId != tenantID) = true
    · rw [if_pos hten]
      exact hInv
    · rw [if_neg hten]
      by_cases hd : (req.date != "") = true
      · rw [if_pos hd]
        cases hp : parse req.date with
        | none =>
          simp only [hp]
          exact hInv
        | some d =>
          simp only [hp]
          exact inv_expense_saved db hInv e0
            (applyExpenseUpdate e0 req (some d)) huniq rfl rfl
      · rw [if_neg hd]
        exact inv_expense_saved db hInv e0
          (applyExpenseUpdate e0 req none) huniq rfl rfl

/-- Helper for C3: ExpenseService.Delete recomputes the linked report. -/
theorem inv_expense_delete (db : DB) (hWF : DBWF db)
    (hInv : reportTotalsInv db) (id tenantID : Nat) :
    reportTotalsInv (ExpenseService.Delete db id tenantID).2 := by
  cases he0 : Repository.GetExpenseByID db id with
  | none =>
    simp only [ExpenseService.Delete, he0]
    exact hInv
  | some e0 =>
    have huniq : ∀ x ∈ db.expenses, x.id = e0.id → x = e0 :=
      fun x hx hxe =>
        hWF.2.1 x hx e0 (List.mem_of_find?_eq_some he0) hxe
    have hid0 : e0.id = id :=
      beq_iff_eq.mp
        (@List.find?_some _ (fun x : Expense => x.id == id) e0
          db.expenses he0)
    simp only [ExpenseService.Delete, he0]
    by_cases hten : (e0.tenantId != tenantID) = true
    · rw [if_pos hten]
      exact hInv
    · rw [if_neg hten]
      rw [← hid0]
      exact inv_expense_removed db hInv e0 huniq

/-- C3 counterexample: from an invariant-satisfying store, a completed
ExpenseService.Create by a caller of tenant 2 naming a report of tenant 1
links the expense to that report but skips the recompute (the block is
guarded by report.TenantID == tenantID), so the report's total_expenses (0)
no longer equals the sum of its linked expenses (5). -/
theorem totals_invariant_claim_false :
    reportTotalsInv dbC3
    ∧ (ExpenseService.Create dbC3 2 9 reqC3 0 noParse).1 = .ok
        { id := 2, tenantId := 2, reportId := some 1, taxiId := none,
          category := "fuel", amount := 5, reason := "", receiptUrl := "",
          date := 0, createdById := 9 }
    ∧ ¬ reportTotalsInv (ExpenseService.Create dbC3 2 9 reqC3 0 noParse).2 :=
  ⟨by decide, rfl, by
    intro h
    have hmem : rptC3 ∈ (ExpenseService.Create dbC3 2 9 reqC3 0 noParse).2.reports :=
      List.mem_singleton.mpr rfl
    have h1 := h rptC3 hmem
    have h2 : sumFor (ExpenseService.Create dbC3 2 9 reqC3 0 noParse).2.expenses
        rptC3.id = 5 + 0 := rfl
    rw [h2] at h1
    norm_num [rptC3] at h1⟩

/-- C3 amended: from a well-formed store satisfying the totals invariant,
every operation of the expense service (Create, Update, Delete and the
reads) and of the report service preserves it, provided an expense-creation
request that names an existing report names one of the caller's tenant; and
the 42.50 scenario holds: creating an expense of amount 42.50 linked to a
report whose total was 0 makes the total 42.50, and deleting that expense
returns it to 0. -/
theorem totals_invariant_amended :
    (∀ db, DBWF db → reportTotalsInv db →
      (∀ tenantID driverID req,
        reportTotalsInv (ReportService.Create db tenantID driverID req).2)
      ∧ (∀ id tenantID,
        reportTotalsInv (ReportService.GetByID db id tenantID).2)
      ∧ (∀ tenantID userID permission,
        reportTotalsInv (ReportService.List db tenantID userID permission).2)
      ∧ (∀ id tenantID driverID permission req,
        reportTotalsInv
          (ReportService.Update db id tenantID driverID permission req).2)
      ∧ (∀ id tenantID driverID now,
        reportTotalsInv (ReportService.Submit db id tenantID driverID now).2)
      ∧ (∀ id tenantID approvedByID permission now,
        reportTotalsInv
          (ReportService.Approve db id tenantID approvedByID permission
            now).2)
      ∧ (∀ id tenantID,
        reportTotalsInv (ReportService.Reject db id tenantID).2)
      ∧ (∀ id tenantID driverID permission,
        reportTotalsInv
          (ReportService.Delete db id tenantID driverID permission).2)
      ∧ (∀ tenantID createdByID req now parse,
        (∀ rid report, req.reportId = some rid →
          Repository.GetReportByID db rid = some report →
          report.tenantId = tenantID) →
        reportTotalsInv
          (ExpenseService.Create db tenantID createdByID req now parse).2)
      ∧ (∀ id tenantID,
        reportTotalsInv (ExpenseService.GetByID db id tenantID).2)
      ∧ (∀ tenantID, reportTotalsInv (ExpenseService.List db tenantID).2)
      ∧ (∀ id tenantID req parse,
        reportTotalsInv (ExpenseService.Update db id tenantID req parse).2)
      ∧ (∀ id tenantID,
        reportTotalsInv (ExpenseService.Delete db id tenantID).2))
    ∧ ((ExpenseService.Create dbC3 1 9 reqC3s 0 noParse).2.reports.map
        (fun r => r.totalExpenses) = [(85 : Rat) / 2]
      ∧ (ExpenseService.Delete
          (ExpenseService.Create dbC3 1 9 reqC3s 0 noParse).2 2
          1).2.reports.map (fun r => r.totalExpenses) = [0]) :=
  ⟨fun db hWF hInv =>
    ⟨fun t d r => inv_report_create db hWF hInv t d r,
     fun i t => inv_report_getbyid db hInv i t,
     fun t u p => inv_report_list db hInv t u p,
     fun i t d p r => inv_report_update db hInv i t d p r,
     fun i t d n => inv_report_submit db hInv i t d n,
     fun i t a p n => inv_report_approve db hInv i t a p n,
     fun i t => inv_report_reject db hInv i t,
     fun i t d p => inv_report_delete db hInv i t d p,
     fun t c r n pa hte => inv_expense_create db hInv t c r n pa hte,
     fun i t => inv_expense_getbyid db hInv i t,
     fun t => inv_expense_list db hInv t,
     fun i t r pa => inv_expense_update db hWF hInv i t r pa,
     fun i t => inv_expense_delete db hWF hInv i t⟩,
   by
     have h1 : (ExpenseService.Create dbC3 1 9 reqC3s 0 noParse).2.reports.map
         (fun r => r.totalExpenses) = [(85 : Rat) / 2 + 0] := rfl
     rw [h1]
     norm_num,
   by
     have h2 : (ExpenseService.Delete
         (ExpenseService.Create dbC3 1 9 reqC3s 0 noParse).2 2
         1).2.reports.map (fun r => r.totalExpenses) = [(0 : Rat)] := rfl
     rw [h2]⟩

/-- C3 witness: the amended theorem applied to a concrete well-formed store,
for a same-tenant expense creation and a report submission. -/
theorem totals_invariant_amended_witness :
    DBWF dbC3 ∧ reportTotalsInv dbC3
    ∧ reportTotalsInv (ExpenseService.Create dbC3 1 9 reqC3s 0 noParse).2
    ∧ reportTotalsInv (ReportService.Submit dbC3 1 1 5 50).2 :=
  ⟨by decide, by decide,
    (totals_invariant_amended.1 dbC3 (by decide)
        (by decide)).2.2.2.2.2.2.2.2.1 1 9 reqC3s 0 noParse
      (fun rid report hreq hrep => by
        have h1 : some 1 = some rid := hreq
        have h1' : rid = 1 := (Option.some.inj h1).symm
        subst h1'
        have h2 : some rptC3 = some report := hrep
        have h2' : report = rptC3 := (Option.some.inj h2).symm
        rw [h2']
        rfl),
    (totals_invariant_amended.1 dbC3 (by decide)
        (by decide)).2.2.2.2.1 1 1 5 50⟩

end TaxiFleet
